import Mathlib

/-!
# Guestara catalog service: request handlers over a relational store

A shallow embedding of `src/index.js`: the sixteen Express routes, in registration
order, each calling one Prisma Client operation and mapping its outcome to a status
code and a body.

The handlers, the route table and the `parseInt` coercions are transcribed from
`src/index.js`.  The store behind `prisma.*` and the router behind `app.*` are
libraries that the file imports; they are modelled here by their documented behaviour:

* `findUnique` yields `null` for a missing row, while `update`, `delete` and a nested
  `connect` throw when the row they need is missing;
* an `undefined` entry of a `data` object means "leave this column alone" (the source
  relies on this itself when it passes `category: undefined` to skip a link);
* a `NaN` or out-of-range value for an `Int` argument is refused before any row is
  touched;
* Express tries the routes in registration order and runs the first whose method and
  path pattern match.

The column types of the three tables live in the Prisma schema, which is not part of
the source file; they enter as the parameter `Schema`.
-/

namespace Guestara

/-! ## JavaScript values -/

/-- A JavaScript value as a handler receives it from a parsed JSON body or a query
string.  `num n` is a Number with an integer value below `10 ^ 21` in magnitude (these
print in plain decimal); `frac s` is any other Number (not an integer, or larger) and
`obj s` an array or an object, both given by the string `s` that `String(value)`
produces. -/
inductive JVal
  | undefined
  | null
  | bool (b : Bool)
  | num (n : Int) (h : n.natAbs < 10 ^ 21)
  | str (s : String)
  | frac (s : String)
  | obj (s : String)
deriving DecidableEq, Repr

namespace JVal

/-- JavaScript truthiness, as tested by `value ? a : b`. -/
def truthy : JVal → Bool
  | undefined => false
  | null => false
  | bool b => b
  | num n _ => n != 0
  | str s => s != ""
  | frac _ => true
  | obj _ => true

/-- The string conversion `parseInt` applies to its argument. -/
def toStr : JVal → String
  | undefined => "undefined"
  | null => "null"
  | bool true => "true"
  | bool false => "false"
  | num n _ => toString n
  | str s => s
  | frac s => s
  | obj s => s

end JVal

/-- A parsed JSON object (a request body) or a parsed query string. -/
abbrev Obj := List (String × JVal)

/-- Property access `obj.key`: `undefined` when the key is not there. -/
def Obj.get (o : Obj) (key : String) : JVal :=
  match o.lookup key with
  | some v => v
  | none => .undefined

/-! ## `parseInt` -/

/-- The code points `parseInt` skips at the start of its input (WhiteSpace and
LineTerminator of the language grammar). -/
def isWhiteSpace (c : Char) : Bool :=
  c.toNat ∈ [9, 10, 11, 12, 13, 32, 160, 5760, 8232, 8233, 8239, 8287, 12288, 65279]
    || (8192 ≤ c.toNat && c.toNat ≤ 8202)

/-- Value of `c` as a digit in the given radix, if it is one. -/
def digitVal (radix : Nat) (c : Char) : Option Nat :=
  let n := c.toNat
  let v : Option Nat :=
    if 48 ≤ n ∧ n ≤ 57 then some (n - 48)
    else if 97 ≤ n ∧ n ≤ 122 then some (n - 87)
    else if 65 ≤ n ∧ n ≤ 90 then some (n - 55)
    else none
  match v with
  | some d => if d < radix then some d else none
  | none => none

/-- The digits of the longest prefix of the input made of digits of the radix. -/
def digitPrefix (radix : Nat) : List Char → List Nat
  | [] => []
  | c :: cs =>
    match digitVal radix c with
    | some d => d :: digitPrefix radix cs
    | none => []

/-- The number written by the longest digit prefix; `none` when that prefix is empty. -/
def parseDigits (radix : Nat) (cs : List Char) : Option Nat :=
  match digitPrefix radix cs with
  | [] => none
  | ds => some (ds.foldl (fun a d => a * radix + d) 0)

/-- An optional leading sign. -/
def stripSign : List Char → Bool × List Char
  | [] => (false, [])
  | c :: cs =>
    if c = '-' then (true, cs) else if c = '+' then (false, cs) else (false, c :: cs)

/-- An optional `0x` or `0X`, which switches to radix 16. -/
def stripHex : List Char → Nat × List Char
  | c :: d :: cs =>
    if c = '0' ∧ (d = 'x' ∨ d = 'X') then (16, cs) else (10, c :: d :: cs)
  | cs => (10, cs)

/-- JavaScript `parseInt(s)` with no radix argument; `none` stands for `NaN`.  The
result is kept as an exact integer: the store refuses every value outside the 32-bit
range, and below that bound a Number is exact. -/
def parseInt (s : String) : Option Int :=
  let (neg, cs) := stripSign (s.toList.dropWhile isWhiteSpace)
  let (radix, cs) := stripHex cs
  match parseDigits radix cs with
  | none => none
  | some m => some (if neg then -(m : Int) else m)

/-! ## Tables -/

/-- Typed errors thrown by the store client; the handler puts the error's message in
the response body. -/
inductive PrismaError
  | validation
  | recordNotFound
  | foreignKeyConstraint
  | valueOutOfRange
  | cannotReach
deriving DecidableEq, Repr

/-- Scalar columns that a handler writes. -/
inductive Col
  | name | image | description | taxApplicability | tax | taxType
  | baseAmount | discount | totalAmount
deriving DecidableEq, Repr

/-- The three tables. -/
inductive Model
  | category | subCategory | item
deriving DecidableEq, Repr

/-- The part of the Prisma schema the handlers depend on: which values a column of a
table accepts.  `accepts m c .undefined` says the column may be left out when a row is
created, `accepts m c .null` that it is nullable. -/
structure Schema where
  accepts : Model → Col → JVal → Bool

/-- The `data` object of `prisma.category.create` and `prisma.category.update`. -/
structure CategoryData where
  name : JVal
  image : JVal
  description : JVal
  taxApplicability : JVal
  tax : JVal
  taxType : JVal
deriving DecidableEq, Repr

/-- The scalar part of the `data` object of the subcategory operations. -/
structure SubCategoryData where
  name : JVal
  image : JVal
  description : JVal
  taxApplicability : JVal
  tax : JVal
deriving DecidableEq, Repr

/-- The scalar part of the `data` object of the item operations. -/
structure ItemData where
  name : JVal
  image : JVal
  description : JVal
  taxApplicability : JVal
  tax : JVal
  baseAmount : JVal
  discount : JVal
  totalAmount : JVal
deriving DecidableEq, Repr

/-- A Category row. -/
structure Category where
  id : Int
  data : CategoryData
deriving DecidableEq, Repr

/-- A SubCategory row; the link to its category is mandatory. -/
structure SubCategory where
  id : Int
  data : SubCategoryData
  categoryId : Int
deriving DecidableEq, Repr

/-- An Item row; both parent links are optional. -/
structure Item where
  id : Int
  data : ItemData
  categoryId : Option Int
  subCategoryId : Option Int
deriving DecidableEq, Repr

/-- The store: three tables in insertion order, the next value of each id sequence,
and whether the database answers at all. -/
structure Db where
  categories : List Category
  subCategories : List SubCategory
  items : List Item
  nextCategoryId : Int
  nextSubCategoryId : Int
  nextItemId : Int
  reachable : Bool
deriving DecidableEq, Repr

/-- A freshly migrated database. -/
def Db.empty : Db :=
  { categories := [], subCategories := [], items := []
    nextCategoryId := 1, nextSubCategoryId := 1, nextItemId := 1, reachable := true }

/-- Columns of a category `data` object, with their values. -/
def CategoryData.cols (d : CategoryData) : List (Col × JVal) :=
  [(.name, d.name), (.image, d.image), (.description, d.description),
   (.taxApplicability, d.taxApplicability), (.tax, d.tax), (.taxType, d.taxType)]

/-- Columns of a subcategory `data` object, with their values. -/
def SubCategoryData.cols (d : SubCategoryData) : List (Col × JVal) :=
  [(.name, d.name), (.image, d.image), (.description, d.description),
   (.taxApplicability, d.taxApplicability), (.tax, d.tax)]

/-- Columns of an item `data` object, with their values. -/
def ItemData.cols (d : ItemData) : List (Col × JVal) :=
  [(.name, d.name), (.image, d.image), (.description, d.description),
   (.taxApplicability, d.taxApplicability), (.tax, d.tax),
   (.baseAmount, d.baseAmount), (.discount, d.discount), (.totalAmount, d.totalAmount)]

/-- Value of a column of an item `data` object (`undefined` for a column items lack). -/
def ItemData.get (d : ItemData) : Col → JVal
  | .name => d.name
  | .image => d.image
  | .description => d.description
  | .taxApplicability => d.taxApplicability
  | .tax => d.tax
  | .taxType => .undefined
  | .baseAmount => d.baseAmount
  | .discount => d.discount
  | .totalAmount => d.totalAmount

/-- A create is well-typed when every column accepts the value given for it. -/
def validCreate (S : Schema) (m : Model) (cols : List (Col × JVal)) : Bool :=
  cols.all fun cv => S.accepts m cv.1 cv.2

/-- An update is well-typed when every column that is given a value accepts it. -/
def validUpdate (S : Schema) (m : Model) (cols : List (Col × JVal)) : Bool :=
  cols.all fun cv => cv.2 = .undefined || S.accepts m cv.1 cv.2

/-- The value stored for a column on create: a column left out is stored as null. -/
def onCreate (v : JVal) : JVal :=
  if v = .undefined then .null else v

/-- The value stored for a column on update: `undefined` leaves the column alone. -/
def onUpdate (old new : JVal) : JVal :=
  if new = .undefined then old else new

/-- Stored columns of a new category. -/
def CategoryData.created (d : CategoryData) : CategoryData :=
  { name := onCreate d.name, image := onCreate d.image
    description := onCreate d.description
    taxApplicability := onCreate d.taxApplicability
    tax := onCreate d.tax, taxType := onCreate d.taxType }

/-- Stored columns of a category after an update with `d`. -/
def CategoryData.updated (old d : CategoryData) : CategoryData :=
  { name := onUpdate old.name d.name, image := onUpdate old.image d.image
    description := onUpdate old.description d.description
    taxApplicability := onUpdate old.taxApplicability d.taxApplicability
    tax := onUpdate old.tax d.tax, taxType := onUpdate old.taxType d.taxType }

/-- Stored columns of a new subcategory. -/
def SubCategoryData.created (d : SubCategoryData) : SubCategoryData :=
  { name := onCreate d.name, image := onCreate d.image
    description := onCreate d.description
    taxApplicability := onCreate d.taxApplicability
    tax := onCreate d.tax }

/-- Stored columns of a subcategory after an update with `d`. -/
def SubCategoryData.updated (old d : SubCategoryData) : SubCategoryData :=
  { name := onUpdate old.name d.name, image := onUpdate old.image d.image
    description := onUpdate old.description d.description
    taxApplicability := onUpdate old.taxApplicability d.taxApplicability
    tax := onUpdate old.tax d.tax }

/-- Stored columns of a new item. -/
def ItemData.created (d : ItemData) : ItemData :=
  { name := onCreate d.name, image := onCreate d.image
    description := onCreate d.description
    taxApplicability := onCreate d.taxApplicability
    tax := onCreate d.tax, baseAmount := onCreate d.baseAmount
    discount := onCreate d.discount, totalAmount := onCreate d.totalAmount }

/-- Stored columns of an item after an update with `d`. -/
def ItemData.updated (old d : ItemData) : ItemData :=
  { name := onUpdate old.name d.name, image := onUpdate old.image d.image
    description := onUpdate old.description d.description
    taxApplicability := onUpdate old.taxApplicability d.taxApplicability
    tax := onUpdate old.tax d.tax, baseAmount := onUpdate old.baseAmount d.baseAmount
    discount := onUpdate old.discount d.discount
    totalAmount := onUpdate old.totalAmount d.totalAmount }

/-! ## Reads with `include` -/

/-- A subcategory read with `include: { items: true }`. -/
structure SubCategoryWithItems where
  row : SubCategory
  items : List Item
deriving DecidableEq, Repr

/-- A category read with
`include: { subCategories: { include: { items: true } }, items: true }`. -/
structure CategoryNested where
  row : Category
  subCategories : List SubCategoryWithItems
  items : List Item
deriving DecidableEq, Repr

/-- A subcategory read with `include: { category: true, items: true }`. -/
structure SubCategoryFull where
  row : SubCategory
  category : Option Category
  items : List Item
deriving DecidableEq, Repr

/-- An item read with `include: { category: true, subCategory: true }`. -/
structure ItemFull where
  row : Item
  category : Option Category
  subCategory : Option SubCategory
deriving DecidableEq, Repr

/-- Items whose `subCategoryId` is `sid`. -/
def Db.itemsOfSubCategory (db : Db) (sid : Int) : List Item :=
  db.items.filter fun i => i.subCategoryId = some sid

/-- Items whose `categoryId` is `cid`. -/
def Db.itemsOfCategory (db : Db) (cid : Int) : List Item :=
  db.items.filter fun i => i.categoryId = some cid

/-- Subcategories whose `categoryId` is `cid`. -/
def Db.subCategoriesOf (db : Db) (cid : Int) : List SubCategory :=
  db.subCategories.filter fun s => s.categoryId = cid

/-- The category row with the given id. -/
def Db.findCategory (db : Db) (id : Int) : Option Category :=
  db.categories.find? fun c => c.id = id

/-- The subcategory row with the given id. -/
def Db.findSubCategory (db : Db) (id : Int) : Option SubCategory :=
  db.subCategories.find? fun s => s.id = id

/-- The item row with the given id. -/
def Db.findItem (db : Db) (id : Int) : Option Item :=
  db.items.find? fun i => i.id = id

/-- A subcategory together with its items. -/
def Db.nestSubCategory (db : Db) (s : SubCategory) : SubCategoryWithItems :=
  { row := s, items := db.itemsOfSubCategory s.id }

/-- A category together with its subcategories (each with its items) and the items
linked to the category itself. -/
def Db.nestCategory (db : Db) (c : Category) : CategoryNested :=
  { row := c
    subCategories := (db.subCategoriesOf c.id).map db.nestSubCategory
    items := db.itemsOfCategory c.id }

/-- A subcategory together with its category and its items. -/
def Db.fullSubCategory (db : Db) (s : SubCategory) : SubCategoryFull :=
  { row := s, category := db.findCategory s.categoryId
    items := db.itemsOfSubCategory s.id }

/-- An item together with its category and its subcategory, where linked. -/
def Db.fullItem (db : Db) (i : Item) : ItemFull :=
  { row := i
    category := i.categoryId.bind db.findCategory
    subCategory := i.subCategoryId.bind db.findSubCategory }

/-! ## Store operations -/

/-- The range of an `Int` column. -/
def int32 (n : Int) : Bool :=
  -2147483648 ≤ n && n ≤ 2147483647

/-- Check of an `Int` argument (`where: { id }`, `connect: { id }`): `NaN` and values
that do not fit the column are refused. -/
def checkId : Option Int → Except PrismaError Int
  | none => .error .validation
  | some n => if int32 n then .ok n else .error .validation

/-- Lower-case form of an ASCII letter; other characters are unchanged. -/
def asciiLower (c : Char) : Char :=
  if 65 ≤ c.toNat ∧ c.toNat ≤ 90 then Char.ofNat (c.toNat + 32) else c

/-- Characters of a string, folded to lower case. -/
def lower (s : String) : List Char :=
  s.toList.map asciiLower

/-- Whether `needle` occurs as a contiguous block of `hay`. -/
def containsSub (hay needle : List Char) : Bool :=
  hay.tails.any fun t => needle.isPrefixOf t

/-- The filter `{ contains: q, mode: 'insensitive' }` on a string column. -/
def containsInsensitive (v : JVal) (q : String) : Bool :=
  match v with
  | .str s => containsSub (lower s) (lower q)
  | _ => false

namespace prisma

/-- Model of `prisma.category.create({ data })`. -/
def category.create (S : Schema) (db : Db) (d : CategoryData) :
    Except PrismaError (Category × Db) :=
  if !validCreate S .category d.cols then .error .validation
  else if !db.reachable then .error .cannotReach
  else if !int32 db.nextCategoryId then .error .valueOutOfRange
  else
    let row : Category := { id := db.nextCategoryId, data := d.created }
    .ok (row, { db with categories := db.categories ++ [row]
                        nextCategoryId := db.nextCategoryId + 1 })

/-- Model of `prisma.category.findMany` with the nested `include` of the list route. -/
def category.findMany (db : Db) : Except PrismaError (List CategoryNested) :=
  if !db.reachable then .error .cannotReach
  else .ok (db.categories.map db.nestCategory)

/-- Model of `prisma.category.findUnique({ where: { id }, include })`. -/
def category.findUnique (db : Db) (id : Option Int) :
    Except PrismaError (Option CategoryNested) :=
  match checkId id with
  | .error e => .error e
  | .ok n =>
    if !db.reachable then .error .cannotReach
    else .ok ((db.findCategory n).map db.nestCategory)

/-- Model of `prisma.category.update({ where: { id }, data })`. -/
def category.update (S : Schema) (db : Db) (id : Option Int) (d : CategoryData) :
    Except PrismaError (Category × Db) :=
  match checkId id with
  | .error e => .error e
  | .ok n =>
    if !validUpdate S .category d.cols then .error .validation
    else if !db.reachable then .error .cannotReach
    else
      match db.findCategory n with
      | none => .error .recordNotFound
      | some c =>
        let row : Category := { c with data := c.data.updated d }
        .ok (row, { db with categories :=
                      db.categories.map fun x => if x.id = n then row else x })

/-- Model of `prisma.category.delete({ where: { id } })`.  Subcategories hold a mandatory link,
so a category that still has some cannot be removed; items hold an optional link, which
is cleared. -/
def category.delete (db : Db) (id : Option Int) : Except PrismaError (Category × Db) :=
  match checkId id with
  | .error e => .error e
  | .ok n =>
    if !db.reachable then .error .cannotReach
    else
      match db.findCategory n with
      | none => .error .recordNotFound
      | some c =>
        if (db.subCategoriesOf n).isEmpty then
          .ok (c, { db with
                      categories := db.categories.filter fun x => x.id ≠ n
                      items := db.items.map fun i =>
                        if i.categoryId = some n then { i with categoryId := none } else i })
        else .error .foreignKeyConstraint

/-- Model of `prisma.subCategory.create({ data: { ..., category: { connect: { id } } } })`. -/
def subCategory.create (S : Schema) (db : Db) (d : SubCategoryData) (category : Option Int) :
    Except PrismaError (SubCategory × Db) :=
  if !validCreate S .subCategory d.cols then .error .validation
  else
    match checkId category with
    | .error e => .error e
    | .ok cid =>
      if !db.reachable then .error .cannotReach
      else
        match db.findCategory cid with
        | none => .error .recordNotFound
        | some c =>
          if !int32 db.nextSubCategoryId then .error .valueOutOfRange
          else
            let row : SubCategory :=
              { id := db.nextSubCategoryId, data := d.created, categoryId := c.id }
            .ok (row, { db with subCategories := db.subCategories ++ [row]
                                nextSubCategoryId := db.nextSubCategoryId + 1 })

/-- Model of `prisma.subCategory.findMany({ include: { category: true, items: true } })`. -/
def subCategory.findMany (db : Db) : Except PrismaError (List SubCategoryFull) :=
  if !db.reachable then .error .cannotReach
  else .ok (db.subCategories.map db.fullSubCategory)

/-- Model of `prisma.subCategory.findUnique({ where: { id }, include })`. -/
def subCategory.findUnique (db : Db) (id : Option Int) :
    Except PrismaError (Option SubCategoryFull) :=
  match checkId id with
  | .error e => .error e
  | .ok n =>
    if !db.reachable then .error .cannotReach
    else .ok ((db.findSubCategory n).map db.fullSubCategory)

/-- Model of `prisma.subCategory.update({ where: { id }, data })`. -/
def subCategory.update (S : Schema) (db : Db) (id : Option Int) (d : SubCategoryData) :
    Except PrismaError (SubCategory × Db) :=
  match checkId id with
  | .error e => .error e
  | .ok n =>
    if !validUpdate S .subCategory d.cols then .error .validation
    else if !db.reachable then .error .cannotReach
    else
      match db.findSubCategory n with
      | none => .error .recordNotFound
      | some s =>
        let row : SubCategory := { s with data := s.data.updated d }
        .ok (row, { db with subCategories :=
                      db.subCategories.map fun x => if x.id = n then row else x })

/-- Model of `prisma.subCategory.delete({ where: { id } })`; the optional link of its items is
cleared. -/
def subCategory.delete (db : Db) (id : Option Int) :
    Except PrismaError (SubCategory × Db) :=
  match checkId id with
  | .error e => .error e
  | .ok n =>
    if !db.reachable then .error .cannotReach
    else
      match db.findSubCategory n with
      | none => .error .recordNotFound
      | some s =>
        .ok (s, { db with
                    subCategories := db.subCategories.filter fun x => x.id ≠ n
                    items := db.items.map fun i =>
                      if i.subCategoryId = some n then { i with subCategoryId := none }
                      else i })

/-- Resolution of an optional `connect`: `none` is `undefined` (no link is made),
`some id` asks for a link to the row `id` of the table searched by `find`. -/
def connect {α : Type} (find : Int → Option α) (key : α → Int) :
    Option (Option Int) → Except PrismaError (Option Int)
  | none => .ok none
  | some id =>
    match checkId id with
    | .error e => .error e
    | .ok n =>
      match find n with
      | none => .error .recordNotFound
      | some r => .ok (some (key r))

/-- Model of `prisma.item.create({ data: { ..., category, subCategory } })`. -/
def item.create (S : Schema) (db : Db) (d : ItemData)
    (category subCategory : Option (Option Int)) : Except PrismaError (Item × Db) :=
  if !validCreate S .item d.cols then .error .validation
  else if !db.reachable then .error .cannotReach
  else
    match connect db.findCategory Category.id category with
    | .error e => .error e
    | .ok cid =>
      match connect db.findSubCategory SubCategory.id subCategory with
      | .error e => .error e
      | .ok sid =>
        if !int32 db.nextItemId then .error .valueOutOfRange
        else
          let row : Item :=
            { id := db.nextItemId, data := d.created, categoryId := cid
              subCategoryId := sid }
          .ok (row, { db with items := db.items ++ [row]
                              nextItemId := db.nextItemId + 1 })

/-- Model of `prisma.item.findMany({ include: { category: true, subCategory: true } })`. -/
def item.findMany (db : Db) : Except PrismaError (List ItemFull) :=
  if !db.reachable then .error .cannotReach
  else .ok (db.items.map db.fullItem)

/-- Model of `prisma.item.findUnique({ where: { id }, include })`. -/
def item.findUnique (db : Db) (id : Option Int) : Except PrismaError (Option ItemFull) :=
  match checkId id with
  | .error e => .error e
  | .ok n =>
    if !db.reachable then .error .cannotReach
    else .ok ((db.findItem n).map db.fullItem)

/-- Model of `prisma.item.update({ where: { id }, data })`. -/
def item.update (S : Schema) (db : Db) (id : Option Int) (d : ItemData) :
    Except PrismaError (Item × Db) :=
  match checkId id with
  | .error e => .error e
  | .ok n =>
    if !validUpdate S .item d.cols then .error .validation
    else if !db.reachable then .error .cannotReach
    else
      match db.findItem n with
      | none => .error .recordNotFound
      | some i =>
        let row : Item := { i with data := i.data.updated d }
        .ok (row, { db with items := db.items.map fun x => if x.id = n then row else x })

/-- Model of `prisma.item.delete({ where: { id } })`. -/
def item.delete (db : Db) (id : Option Int) : Except PrismaError (Item × Db) :=
  match checkId id with
  | .error e => .error e
  | .ok n =>
    if !db.reachable then .error .cannotReach
    else
      match db.findItem n with
      | none => .error .recordNotFound
      | some i => .ok (i, { db with items := db.items.filter fun x => x.id ≠ n })

/-- Model of `prisma.item.findMany({ where: { name: { contains, mode: 'insensitive' } } })`.
An `undefined` filter value is no filter; a value that is not a string is refused. -/
def item.search (db : Db) (query : JVal) : Except PrismaError (List Item) :=
  match query with
  | .undefined => if !db.reachable then .error .cannotReach else .ok db.items
  | .str q =>
    if !db.reachable then .error .cannotReach
    else .ok (db.items.filter fun i => containsInsensitive i.data.name q)
  | _ => .error .validation

end prisma

/-! ## Requests and responses -/

/-- The HTTP methods the application registers routes for. -/
inductive Method
  | GET | POST | PUT | DELETE
deriving DecidableEq, Repr

/-- A request as a handler sees it: the path split at `/` into decoded segments, the
parsed query string, the JSON body parsed by `express.json()`, and the route
parameters, which the router fills in. -/
structure Request where
  method : Method
  path : List String
  query : Obj
  body : Obj
  params : Obj
deriving DecidableEq, Repr

/-- What a handler sends. -/
inductive ResBody
  | empty
  | text (s : String)
  | error (message : PrismaError)
  | category (c : Category)
  | categoryNested (c : CategoryNested)
  | categories (cs : List CategoryNested)
  | subCategory (s : SubCategory)
  | subCategoryFull (s : SubCategoryFull)
  | subCategories (ss : List SubCategoryFull)
  | item (i : Item)
  | itemFull (i : ItemFull)
  | itemsFull (is : List ItemFull)
  | items (is : List Item)
deriving DecidableEq, Repr

/-- Status code and body of a response. -/
structure Response where
  status : Nat
  body : ResBody
deriving DecidableEq, Repr

/-- The destructuring `{ name, image, description, taxApplicability, tax, taxType }`
of a request body. -/
def categoryData (body : Obj) : CategoryData :=
  { name := body.get "name", image := body.get "image"
    description := body.get "description"
    taxApplicability := body.get "taxApplicability"
    tax := body.get "tax", taxType := body.get "taxType" }

/-- The destructuring `{ name, image, description, taxApplicability, tax }` of a
request body. -/
def subCategoryData (body : Obj) : SubCategoryData :=
  { name := body.get "name", image := body.get "image"
    description := body.get "description"
    taxApplicability := body.get "taxApplicability"
    tax := body.get "tax" }

/-- The destructuring of the eight scalar item fields of a request body. -/
def itemData (body : Obj) : ItemData :=
  { name := body.get "name", image := body.get "image"
    description := body.get "description"
    taxApplicability := body.get "taxApplicability"
    tax := body.get "tax", baseAmount := body.get "baseAmount"
    discount := body.get "discount", totalAmount := body.get "totalAmount" }

/-- The expression `v ? { connect: { id: parseInt(v) } } : undefined`. -/
def connectIfProvided (v : JVal) : Option (Option Int) :=
  if v.truthy then some (parseInt v.toStr) else none

/-- The expression `parseInt(req.params.<key>)`. -/
def paramInt (req : Request) (key : String) : Option Int :=
  parseInt (req.params.get key).toStr

/-! ## Handlers, in the order of `src/index.js` -/

/-- Handler of `POST /categories`. -/
def postCategory (S : Schema) (db : Db) (req : Request) : Response × Db :=
  match prisma.category.create S db (categoryData req.body) with
  | .ok (category, db') => (⟨201, .category category⟩, db')
  | .error e => (⟨500, .error e⟩, db)

/-- Handler of `GET /categories`. -/
def getCategories (_ : Schema) (db : Db) (_ : Request) : Response × Db :=
  match prisma.category.findMany db with
  | .ok categories => (⟨200, .categories categories⟩, db)
  | .error e => (⟨500, .error e⟩, db)

/-- Handler of `GET /categories/:id`. -/
def getCategory (_ : Schema) (db : Db) (req : Request) : Response × Db :=
  match prisma.category.findUnique db (paramInt req "id") with
  | .ok (some category) => (⟨200, .categoryNested category⟩, db)
  | .ok none => (⟨404, .text "Category not found"⟩, db)
  | .error e => (⟨500, .error e⟩, db)

/-- Handler of `PUT /categories/:id`. -/
def putCategory (S : Schema) (db : Db) (req : Request) : Response × Db :=
  match prisma.category.update S db (paramInt req "id") (categoryData req.body) with
  | .ok (category, db') => (⟨200, .category category⟩, db')
  | .error e => (⟨500, .error e⟩, db)

/-- Handler of `DELETE /categories/:id`. -/
def deleteCategory (_ : Schema) (db : Db) (req : Request) : Response × Db :=
  match prisma.category.delete db (paramInt req "id") with
  | .ok (_, db') => (⟨204, .empty⟩, db')
  | .error e => (⟨500, .error e⟩, db)

/-- Handler of `POST /categories/:categoryId/subcategories`. -/
def postSubCategory (S : Schema) (db : Db) (req : Request) : Response × Db :=
  match prisma.subCategory.create S db (subCategoryData req.body)
      (paramInt req "categoryId") with
  | .ok (subCategory, db') => (⟨201, .subCategory subCategory⟩, db')
  | .error e => (⟨500, .error e⟩, db)

/-- Handler of `GET /subcategories`. -/
def getSubCategories (_ : Schema) (db : Db) (_ : Request) : Response × Db :=
  match prisma.subCategory.findMany db with
  | .ok subCategories => (⟨200, .subCategories subCategories⟩, db)
  | .error e => (⟨500, .error e⟩, db)

/-- Handler of `GET /subcategories/:id`. -/
def getSubCategory (_ : Schema) (db : Db) (req : Request) : Response × Db :=
  match prisma.subCategory.findUnique db (paramInt req "id") with
  | .ok (some subCategory) => (⟨200, .subCategoryFull subCategory⟩, db)
  | .ok none => (⟨404, .text "SubCategory not found"⟩, db)
  | .error e => (⟨500, .error e⟩, db)

/-- Handler of `PUT /subcategories/:id`. -/
def putSubCategory (S : Schema) (db : Db) (req : Request) : Response × Db :=
  match prisma.subCategory.update S db (paramInt req "id") (subCategoryData req.body) with
  | .ok (subCategory, db') => (⟨200, .subCategory subCategory⟩, db')
  | .error e => (⟨500, .error e⟩, db)

/-- Handler of `DELETE /subcategories/:id`. -/
def deleteSubCategory (_ : Schema) (db : Db) (req : Request) : Response × Db :=
  match prisma.subCategory.delete db (paramInt req "id") with
  | .ok (_, db') => (⟨204, .empty⟩, db')
  | .error e => (⟨500, .error e⟩, db)

/-- Handler of `POST /items`. -/
def postItem (S : Schema) (db : Db) (req : Request) : Response × Db :=
  match prisma.item.create S db (itemData req.body)
      (connectIfProvided (req.body.get "categoryId"))
      (connectIfProvided (req.body.get "subCategoryId")) with
  | .ok (item, db') => (⟨201, .item item⟩, db')
  | .error e => (⟨500, .error e⟩, db)

/-- Handler of `GET /items`. -/
def getItems (_ : Schema) (db : Db) (_ : Request) : Response × Db :=
  match prisma.item.findMany db with
  | .ok items => (⟨200, .itemsFull items⟩, db)
  | .error e => (⟨500, .error e⟩, db)

/-- Handler of `GET /items/:id`. -/
def getItem (_ : Schema) (db : Db) (req : Request) : Response × Db :=
  match prisma.item.findUnique db (paramInt req "id") with
  | .ok (some item) => (⟨200, .itemFull item⟩, db)
  | .ok none => (⟨404, .text "Item not found"⟩, db)
  | .error e => (⟨500, .error e⟩, db)

/-- Handler of `PUT /items/:id`. -/
def putItem (S : Schema) (db : Db) (req : Request) : Response × Db :=
  match prisma.item.update S db (paramInt req "id") (itemData req.body) with
  | .ok (item, db') => (⟨200, .item item⟩, db')
  | .error e => (⟨500, .error e⟩, db)

/-- Handler of `DELETE /items/:id`. -/
def deleteItem (_ : Schema) (db : Db) (req : Request) : Response × Db :=
  match prisma.item.delete db (paramInt req "id") with
  | .ok (_, db') => (⟨204, .empty⟩, db')
  | .error e => (⟨500, .error e⟩, db)

/-- Handler of `GET /items/search`. -/
def searchItems (_ : Schema) (db : Db) (req : Request) : Response × Db :=
  match prisma.item.search db (req.query.get "query") with
  | .ok items => (⟨200, .items items⟩, db)
  | .error e => (⟨500, .error e⟩, db)

/-! ## The router -/

/-- A segment of a route path: a literal, or a named parameter `:key`. -/
inductive Seg
  | lit (s : String)
  | param (key : String)
deriving DecidableEq, Repr

/-- Match of a route path against a request path.  Literals compare without regard to
case (routing is case-insensitive by default); a parameter takes one non-empty segment.
The result is `req.params`. -/
def matchPath : List Seg → List String → Option Obj
  | [], [] => some []
  | .lit s :: ps, x :: xs => if lower s = lower x then matchPath ps xs else none
  | .param key :: ps, x :: xs =>
    if x = "" then none
    else
      match matchPath ps xs with
      | some params => some ((key, .str x) :: params)
      | none => none
  | _, _ => none

/-- A registered route. -/
structure Route where
  method : Method
  path : List Seg
  handler : Schema → Db → Request → Response × Db

/-- The routes, in the order `src/index.js` registers them. -/
def routes : List Route :=
  [ ⟨.POST, [.lit "categories"], postCategory⟩,
    ⟨.GET, [.lit "categories"], getCategories⟩,
    ⟨.GET, [.lit "categories", .param "id"], getCategory⟩,
    ⟨.PUT, [.lit "categories", .param "id"], putCategory⟩,
    ⟨.DELETE, [.lit "categories", .param "id"], deleteCategory⟩,
    ⟨.POST, [.lit "categories", .param "categoryId", .lit "subcategories"], postSubCategory⟩,
    ⟨.GET, [.lit "subcategories"], getSubCategories⟩,
    ⟨.GET, [.lit "subcategories", .param "id"], getSubCategory⟩,
    ⟨.PUT, [.lit "subcategories", .param "id"], putSubCategory⟩,
    ⟨.DELETE, [.lit "subcategories", .param "id"], deleteSubCategory⟩,
    ⟨.POST, [.lit "items"], postItem⟩,
    ⟨.GET, [.lit "items"], getItems⟩,
    ⟨.GET, [.lit "items", .param "id"], getItem⟩,
    ⟨.PUT, [.lit "items", .param "id"], putItem⟩,
    ⟨.DELETE, [.lit "items", .param "id"], deleteItem⟩,
    ⟨.GET, [.lit "items", .lit "search"], searchItems⟩ ]

/-- Dispatch over a route table: the first route whose method and path match handles
the request, and each handler ends the response; with no match the router answers 404
itself. -/
def dispatch (S : Schema) (db : Db) (req : Request) : List Route → Response × Db
  | [] => (⟨404, .text "Cannot route"⟩, db)
  | r :: rs =>
    if r.method = req.method then
      match matchPath r.path req.path with
      | some params => r.handler S db { req with params := params }
      | none => dispatch S db req rs
    else dispatch S db req rs

/-- The application: dispatch over `routes`. -/
def app (S : Schema) (db : Db) (req : Request) : Response × Db :=
  dispatch S db req routes

/-! ## A concrete schema -/

/-- Modelled from the spec: the Prisma schema is not part of the source file.  Column
types follow the data model of the specification (name, image, description and taxType
are strings, taxApplicability is a boolean, tax and the three amounts are numeric), and
every column may be left out or null, as the specification lets any field be absent. -/
def specSchema : Schema where
  accepts := fun _ c v =>
    match v with
    | .undefined => true
    | .null => true
    | .str _ => c = .name || c = .image || c = .description || c = .taxType
    | .bool _ => c = .taxApplicability
    | .num _ _ => c = .tax || c = .baseAmount || c = .discount || c = .totalAmount
    | .frac _ => c = .tax || c = .baseAmount || c = .discount || c = .totalAmount
    | .obj _ => false

/-! ## Vocabulary of the properties -/

/-- A request before routing: no route parameters yet. -/
def request (method : Method) (path : List String) (query body : Obj) : Request :=
  { method := method, path := path, query := query, body := body, params := [] }

/-- The key under which a handler reads a column from a request body. -/
def Col.key : Col → String
  | .name => "name"
  | .image => "image"
  | .description => "description"
  | .taxApplicability => "taxApplicability"
  | .tax => "tax"
  | .taxType => "taxType"
  | .baseAmount => "baseAmount"
  | .discount => "discount"
  | .totalAmount => "totalAmount"

/-- The eight columns `PUT /items/:id` writes. -/
def itemCols : List Col :=
  [.name, .image, .description, .taxApplicability, .tax, .baseAmount, .discount,
   .totalAmount]

/-- Every item that occurs anywhere in the nested entry of a category: the items linked
to the category itself, then the items of each of its subcategories. -/
def CategoryNested.allItems (e : CategoryNested) : List Item :=
  e.items ++ (e.subCategories.map fun s => s.items).flatten

/-- States the application can be in: in each table the ids are distinct, positive and
below the next value of the id sequence, the sequences start at 1 and have not run
past the `Int` range, and no link points at an id that was never handed out. -/
def Db.WF (db : Db) : Prop :=
  (db.categories.map Category.id).Nodup
    ∧ (db.subCategories.map SubCategory.id).Nodup
    ∧ (db.items.map Item.id).Nodup
    ∧ (∀ c ∈ db.categories, 1 ≤ c.id ∧ c.id < db.nextCategoryId)
    ∧ (∀ s ∈ db.subCategories, 1 ≤ s.id ∧ s.id < db.nextSubCategoryId)
    ∧ (∀ i ∈ db.items, 1 ≤ i.id ∧ i.id < db.nextItemId)
    ∧ db.nextCategoryId ≤ 2147483648
    ∧ db.nextSubCategoryId ≤ 2147483648
    ∧ db.nextItemId ≤ 2147483648
    ∧ (∀ s ∈ db.subCategories, s.categoryId < db.nextCategoryId)
    ∧ (∀ i ∈ db.items, ∀ n ∈ i.categoryId, n < db.nextCategoryId)
    ∧ (∀ i ∈ db.items, ∀ n ∈ i.subCategoryId, n < db.nextSubCategoryId)
    ∧ 1 ≤ db.nextCategoryId
    ∧ 1 ≤ db.nextSubCategoryId
    ∧ 1 ≤ db.nextItemId

instance (db : Db) : Decidable db.WF := by
  unfold Db.WF; infer_instance

/-- A decimal digit character. -/
def IsDigit (c : Char) : Prop :=
  48 ≤ c.toNat ∧ c.toNat ≤ 57

instance (c : Char) : Decidable (IsDigit c) := by
  unfold IsDigit; infer_instance

/-- Value of a string of decimal digits. -/
def decVal (cs : List Char) : Nat :=
  cs.foldl (fun a c => a * 10 + (c.toNat - 48)) 0

/-! ## Sample data -/

/-- A category "Drinks". -/
def drinks : Category :=
  { id := 1
    data := { name := .str "Drinks", image := .str "drinks.png"
              description := .str "Hot and cold", taxApplicability := .bool true
              tax := .num 5 (by decide), taxType := .str "percentage" } }

/-- A subcategory "Tea" of `drinks`. -/
def tea : SubCategory :=
  { id := 1
    data := { name := .str "Tea", image := .str "tea.png", description := .str "Leaf"
              taxApplicability := .bool true, tax := .num 5 (by decide) }
    categoryId := 1 }

/-- An item linked both to `tea` and, directly, to `drinks`. -/
def chai : Item :=
  { id := 1
    data := { name := .str "Masala Chai", image := .str "chai.png"
              description := .str "Spiced", taxApplicability := .bool true
              tax := .num 5 (by decide), baseAmount := .num 40 (by decide)
              discount := .num 5 (by decide), totalAmount := .num 35 (by decide) }
    categoryId := some 1
    subCategoryId := some 1 }

/-- An item linked to `tea` only. -/
def greenTea : Item :=
  { id := 2
    data := { name := .str "Green Tea", image := .str "green.png"
              description := .str "Plain", taxApplicability := .bool false
              tax := .null, baseAmount := .num 30 (by decide)
              discount := .num 0 (by decide), totalAmount := .num 30 (by decide) }
    categoryId := none
    subCategoryId := some 1 }

/-- A store holding `drinks`, `tea`, `chai` and `greenTea`. -/
def sampleDb : Db :=
  { categories := [drinks], subCategories := [tea], items := [chai, greenTea]
    nextCategoryId := 2, nextSubCategoryId := 2, nextItemId := 3, reachable := true }

/-- An item named "Blue Shirt". -/
def blueShirt : Item :=
  { id := 1
    data := { name := .str "Blue Shirt", image := .null, description := .null
              taxApplicability := .null, tax := .null, baseAmount := .null
              discount := .null, totalAmount := .null }
    categoryId := none
    subCategoryId := none }

/-- An item named "Pants". -/
def pants : Item :=
  { blueShirt with id := 2, data := { blueShirt.data with name := .str "Pants" } }

/-- A store holding `blueShirt` and `pants`. -/
def clothesDb : Db :=
  { Db.empty with items := [blueShirt, pants], nextItemId := 3 }

/-- A store holding a single category, with id 12. -/
def twelveDb : Db :=
  { Db.empty with categories := [{ drinks with id := 12 }], nextCategoryId := 13 }

/-- A full category body. -/
def drinksBody : Obj :=
  [("name", .str "Drinks"), ("image", .str "drinks.png"),
   ("description", .str "Hot and cold"), ("taxApplicability", .bool true),
   ("tax", .num 5 (by decide)), ("taxType", .str "percentage")]

/-- A full subcategory body. -/
def teaBody : Obj :=
  [("name", .str "Tea"), ("image", .str "tea.png"), ("description", .str "Leaf"),
   ("taxApplicability", .bool true), ("tax", .num 5 (by decide))]

/-- A full item body with no parent ids. -/
def chaiBody : Obj :=
  [("name", .str "Masala Chai"), ("image", .str "chai.png"),
   ("description", .str "Spiced"), ("taxApplicability", .bool true),
   ("tax", .num 5 (by decide)), ("baseAmount", .num 40 (by decide)),
   ("discount", .num 5 (by decide)), ("totalAmount", .num 35 (by decide))]

/-- An item body that sets only the name. -/
def renameBody : Obj :=
  [("name", .str "Kashmiri Chai")]

/-- An item body that leaves the name out and sets only the discount. -/
def discountBody : Obj :=
  [("discount", .num 10 (by decide))]

/-- An item body that provides `categoryId: 0` and `subCategoryId: ""`. -/
def falsyParentsBody : Obj :=
  ("categoryId", .num 0 (by decide)) :: ("subCategoryId", .str "") :: chaiBody

/-- An item body that provides `categoryId: 7`. -/
def danglingParentBody : Obj :=
  ("categoryId", .num 7 (by decide)) :: chaiBody

/-! # Properties -/

/-! ## Decimal renderings and `parseInt` -/

theorem digitChar_isDigit (d : Nat) (h : d < 10) :
    IsDigit (Nat.digitChar d) ∧ (Nat.digitChar d).toNat - 48 = d := by
  interval_cases d <;> exact ⟨by decide, by decide⟩

theorem foldl_dec_append (cs : List Char) (a : Nat) :
    cs.foldl (fun a c => a * 10 + (c.toNat - 48)) a
      = a * 10 ^ cs.length + decVal cs := by
  induction cs generalizing a with
  | nil => simp [decVal]
  | cons c cs ih =>
    simp only [List.foldl_cons, List.length_cons, decVal]
    rw [ih, ih (0 * 10 + (c.toNat - 48))]
    ring

theorem decVal_cons (c : Char) (cs : List Char) :
    decVal (c :: cs) = (c.toNat - 48) * 10 ^ cs.length + decVal cs := by
  unfold decVal
  rw [List.foldl_cons, foldl_dec_append]
  simp [decVal]

theorem toDigitsCore_spec (fuel : Nat) : ∀ (n : Nat) (acc : List Char), n < fuel →
    (∀ c ∈ acc, IsDigit c) →
    (∀ c ∈ Nat.toDigitsCore 10 fuel n acc, IsDigit c)
      ∧ Nat.toDigitsCore 10 fuel n acc ≠ []
      ∧ decVal (Nat.toDigitsCore 10 fuel n acc) = n * 10 ^ acc.length + decVal acc := by
  induction fuel with
  | zero => intro n acc h; omega
  | succ fuel ih =>
    intro n acc hn hacc
    have hd := digitChar_isDigit (n % 10) (Nat.mod_lt _ (by decide))
    have hacc' : ∀ c ∈ Nat.digitChar (n % 10) :: acc, IsDigit c := by
      intro c hc
      rcases List.mem_cons.1 hc with h | h
      · exact h ▸ hd.1
      · exact hacc c h
    unfold Nat.toDigitsCore
    by_cases h0 : n / 10 = 0
    · simp only [h0, if_true]
      refine ⟨hacc', by simp, ?_⟩
      rw [decVal_cons, hd.2]
      have : n % 10 = n := by omega
      rw [this]
    · simp only [h0, if_false]
      have hlt : n / 10 < fuel := by omega
      obtain ⟨h1, h2, h3⟩ := ih (n / 10) _ hlt hacc'
      refine ⟨h1, h2, ?_⟩
      rw [h3, decVal_cons, hd.2, List.length_cons, pow_succ]
      have h10 : n = n / 10 * 10 + n % 10 := by omega
      generalize n / 10 = q at h10 ⊢
      generalize n % 10 = r at h10 ⊢
      subst h10
      ring

theorem toDigits_spec (n : Nat) :
    (∀ c ∈ Nat.toDigits 10 n, IsDigit c) ∧ Nat.toDigits 10 n ≠ []
      ∧ decVal (Nat.toDigits 10 n) = n := by
  have := toDigitsCore_spec (n + 1) n [] (by omega) (by simp)
  simpa [Nat.toDigits, decVal] using this

theorem IsDigit.not_ws {c : Char} (h : IsDigit c) : isWhiteSpace c = false := by
  unfold IsDigit at h
  unfold isWhiteSpace
  simp only [List.mem_cons, List.mem_singleton, Bool.or_eq_false_iff, decide_eq_false_iff_not,
    Bool.and_eq_false_iff, List.not_mem_nil, or_false]
  omega

theorem IsDigit.ne_of_not {c d : Char} (h : IsDigit c) (hd : ¬ IsDigit d) : c ≠ d := by
  intro e; exact hd (e ▸ h)

theorem IsDigit.digitVal {c : Char} (h : IsDigit c) :
    digitVal 10 c = some (c.toNat - 48) := by
  unfold IsDigit at h
  unfold Guestara.digitVal
  simp only [h, and_self, if_true]
  have : c.toNat - 48 < 10 := by omega
  simp [this]

theorem digitPrefix_digits (cs : List Char) (h : ∀ c ∈ cs, IsDigit c) :
    digitPrefix 10 cs = cs.map fun c => c.toNat - 48 := by
  induction cs with
  | nil => rfl
  | cons c cs ih =>
    have hc := (h c (List.mem_cons_self _ _)).digitVal
    simp only [digitPrefix, hc, List.map_cons]
    rw [ih fun x hx => h x (List.mem_cons_of_mem _ hx)]

theorem parseDigits_digits (cs : List Char) (h : ∀ c ∈ cs, IsDigit c) (hne : cs ≠ []) :
    parseDigits 10 cs = some (decVal cs) := by
  unfold parseDigits
  rw [digitPrefix_digits cs h]
  cases cs with
  | nil => exact absurd rfl hne
  | cons c cs =>
    simp only [List.map_cons]
    simp [decVal, List.foldl_map]

theorem stripSign_digits (cs : List Char) (h : ∀ c ∈ cs, IsDigit c) :
    stripSign cs = (false, cs) := by
  cases cs with
  | nil => rfl
  | cons c cs =>
    have hc := h c (List.mem_cons_self _ _)
    have h1 : c ≠ '-' := hc.ne_of_not (by decide)
    have h2 : c ≠ '+' := hc.ne_of_not (by decide)
    simp [stripSign, h1, h2]

theorem stripHex_digits (cs : List Char) (h : ∀ c ∈ cs, IsDigit c) :
    stripHex cs = (10, cs) := by
  match cs, h with
  | [], _ => rfl
  | [_], _ => rfl
  | c :: d :: cs, h =>
    have hd : IsDigit d := h d (by simp)
    have h1 : d ≠ 'x' := hd.ne_of_not (by decide)
    have h2 : d ≠ 'X' := hd.ne_of_not (by decide)
    simp [stripHex, h1, h2]

theorem dropWhile_ws_digits (cs : List Char) (h : ∀ c ∈ cs, IsDigit c) :
    cs.dropWhile isWhiteSpace = cs := by
  cases cs with
  | nil => rfl
  | cons c cs =>
    simp [List.dropWhile, (h c (List.mem_cons_self _ _)).not_ws]

theorem parseInt_nat (n : Nat) : parseInt (toString n) = some (n : Int) := by
  obtain ⟨h1, h2, h3⟩ := toDigits_spec n
  show parseInt (Nat.toDigits 10 n).asString = _
  unfold parseInt
  simp only [List.asString, String.toList]
  simp [dropWhile_ws_digits _ h1, stripSign_digits _ h1, stripHex_digits _ h1,
    parseDigits_digits _ h1 h2, h3]

theorem parseInt_neg (n : Nat) :
    parseInt ("-" ++ toString (n + 1)) = some (-((n : Int) + 1)) := by
  obtain ⟨h1, h2, h3⟩ := toDigits_spec (n + 1)
  show parseInt ("-" ++ (Nat.toDigits 10 (n + 1)).asString) = _
  unfold parseInt
  have e : ("-" ++ (Nat.toDigits 10 (n + 1)).asString).toList
      = '-' :: Nat.toDigits 10 (n + 1) := rfl
  rw [e]
  have e2 : List.dropWhile isWhiteSpace ('-' :: Nat.toDigits 10 (n + 1))
      = '-' :: Nat.toDigits 10 (n + 1) := by
    have hws : isWhiteSpace '-' = false := by decide
    simp [List.dropWhile, hws]
  simp [e2, stripSign, stripHex_digits _ h1, parseDigits_digits _ h1 h2, h3]

/-- Reading back the decimal rendering of an integer gives the integer. -/
theorem parseInt_toString (n : Int) : parseInt (toString n) = some n := by
  cases n with
  | ofNat m => exact parseInt_nat m
  | negSucc m =>
    have := parseInt_neg m
    rw [Int.negSucc_eq]
    exact this

/-- The decimal rendering of an integer is never the empty string. -/
theorem toString_int_ne_empty (n : Int) : toString n ≠ "" := by
  intro h
  have := parseInt_toString n
  have e : parseInt "" = none := by decide
  rw [h, e] at this
  cases this

/-! ## Routing -/

theorem paramInt_id (m : Method) (path : List String) (q b : Obj) (key seg : String) :
    paramInt ⟨m, path, q, b, [(key, .str seg)]⟩ key = parseInt seg := by
  simp [paramInt, Obj.get, List.lookup, JVal.toStr]

theorem route_getCategory (S : Schema) (db : Db) (seg : String) (q b : Obj)
    (h : seg ≠ "") :
    app S db (request .GET ["categories", seg] q b)
      = getCategory S db ⟨.GET, ["categories", seg], q, b, [("id", .str seg)]⟩ := by
  simp +decide [app, request, routes, dispatch, matchPath, h]

theorem route_putCategory (S : Schema) (db : Db) (seg : String) (q b : Obj)
    (h : seg ≠ "") :
    app S db (request .PUT ["categories", seg] q b)
      = putCategory S db ⟨.PUT, ["categories", seg], q, b, [("id", .str seg)]⟩ := by
  simp +decide [app, request, routes, dispatch, matchPath, h]

theorem route_deleteCategory (S : Schema) (db : Db) (seg : String) (q b : Obj)
    (h : seg ≠ "") :
    app S db (request .DELETE ["categories", seg] q b)
      = deleteCategory S db ⟨.DELETE, ["categories", seg], q, b, [("id", .str seg)]⟩ := by
  simp +decide [app, request, routes, dispatch, matchPath, h]

theorem route_getSubCategory (S : Schema) (db : Db) (seg : String) (q b : Obj)
    (h : seg ≠ "") :
    app S db (request .GET ["subcategories", seg] q b)
      = getSubCategory S db ⟨.GET, ["subcategories", seg], q, b, [("id", .str seg)]⟩ := by
  simp +decide [app, request, routes, dispatch, matchPath, h]

theorem route_putSubCategory (S : Schema) (db : Db) (seg : String) (q b : Obj)
    (h : seg ≠ "") :
    app S db (request .PUT ["subcategories", seg] q b)
      = putSubCategory S db ⟨.PUT, ["subcategories", seg], q, b, [("id", .str seg)]⟩ := by
  simp +decide [app, request, routes, dispatch, matchPath, h]

theorem route_deleteSubCategory (S : Schema) (db : Db) (seg : String) (q b : Obj)
    (h : seg ≠ "") :
    app S db (request .DELETE ["subcategories", seg] q b)
      = deleteSubCategory S db
          ⟨.DELETE, ["subcategories", seg], q, b, [("id", .str seg)]⟩ := by
  simp +decide [app, request, routes, dispatch, matchPath, h]

theorem route_getItem (S : Schema) (db : Db) (seg : String) (q b : Obj)
    (h : seg ≠ "") :
    app S db (request .GET ["items", seg] q b)
      = getItem S db ⟨.GET, ["items", seg], q, b, [("id", .str seg)]⟩ := by
  simp +decide [app, request, routes, dispatch, matchPath, h]

theorem route_putItem (S : Schema) (db : Db) (seg : String) (q b : Obj)
    (h : seg ≠ "") :
    app S db (request .PUT ["items", seg] q b)
      = putItem S db ⟨.PUT, ["items", seg], q, b, [("id", .str seg)]⟩ := by
  simp +decide [app, request, routes, dispatch, matchPath, h]

theorem route_deleteItem (S : Schema) (db : Db) (seg : String) (q b : Obj)
    (h : seg ≠ "") :
    app S db (request .DELETE ["items", seg] q b)
      = deleteItem S db ⟨.DELETE, ["items", seg], q, b, [("id", .str seg)]⟩ := by
  simp +decide [app, request, routes, dispatch, matchPath, h]

theorem route_postCategory (S : Schema) (db : Db) (q b : Obj) :
    app S db (request .POST ["categories"] q b)
      = postCategory S db ⟨.POST, ["categories"], q, b, []⟩ := by
  simp +decide [app, request, routes, dispatch, matchPath]

theorem route_getCategories (S : Schema) (db : Db) (q b : Obj) :
    app S db (request .GET ["categories"] q b)
      = getCategories S db ⟨.GET, ["categories"], q, b, []⟩ := by
  simp +decide [app, request, routes, dispatch, matchPath]

theorem route_postItem (S : Schema) (db : Db) (q b : Obj) :
    app S db (request .POST ["items"] q b)
      = postItem S db ⟨.POST, ["items"], q, b, []⟩ := by
  simp +decide [app, request, routes, dispatch, matchPath]

theorem route_postSubCategory (S : Schema) (db : Db) (seg : String) (q b : Obj)
    (h : seg ≠ "") :
    app S db (request .POST ["categories", seg, "subcategories"] q b)
      = postSubCategory S db
          ⟨.POST, ["categories", seg, "subcategories"], q, b,
            [("categoryId", .str seg)]⟩ := by
  simp +decide [app, request, routes, dispatch, matchPath, h]

/-! ## Lookups -/

theorem findCategory_none {db : Db} {id : Int} :
    db.findCategory id = none ↔ ∀ c ∈ db.categories, c.id ≠ id := by
  simp [Db.findCategory, List.find?_eq_none]

theorem findSubCategory_none {db : Db} {id : Int} :
    db.findSubCategory id = none ↔ ∀ s ∈ db.subCategories, s.id ≠ id := by
  simp [Db.findSubCategory, List.find?_eq_none]

theorem findItem_none {db : Db} {id : Int} :
    db.findItem id = none ↔ ∀ i ∈ db.items, i.id ≠ id := by
  simp [Db.findItem, List.find?_eq_none]

theorem findCategory_some {db : Db} {id : Int} {c : Category}
    (h : db.findCategory id = some c) : c ∈ db.categories ∧ c.id = id := by
  unfold Db.findCategory at h
  exact ⟨List.mem_of_find?_eq_some h, by simpa using List.find?_some h⟩

theorem findSubCategory_some {db : Db} {id : Int} {s : SubCategory}
    (h : db.findSubCategory id = some s) : s ∈ db.subCategories ∧ s.id = id := by
  unfold Db.findSubCategory at h
  exact ⟨List.mem_of_find?_eq_some h, by simpa using List.find?_some h⟩

theorem findItem_some {db : Db} {id : Int} {i : Item}
    (h : db.findItem id = some i) : i ∈ db.items ∧ i.id = id := by
  unfold Db.findItem at h
  exact ⟨List.mem_of_find?_eq_some h, by simpa using List.find?_some h⟩

/-! ## Handlers on a parsed id -/

theorem getCategory_eq (S : Schema) (db : Db) (req : Request) :
    getCategory S db req
      = match checkId (paramInt req "id") with
        | .error e => (⟨500, .error e⟩, db)
        | .ok n =>
          if db.reachable then
            match db.findCategory n with
            | some c => (⟨200, .categoryNested (db.nestCategory c)⟩, db)
            | none => (⟨404, .text "Category not found"⟩, db)
          else (⟨500, .error .cannotReach⟩, db) := by
  unfold getCategory prisma.category.findUnique
  cases checkId (paramInt req "id") with
  | error e => rfl
  | ok n =>
    cases hr : db.reachable <;> simp
    cases db.findCategory n <;> rfl

theorem getSubCategory_eq (S : Schema) (db : Db) (req : Request) :
    getSubCategory S db req
      = match checkId (paramInt req "id") with
        | .error e => (⟨500, .error e⟩, db)
        | .ok n =>
          if db.reachable then
            match db.findSubCategory n with
            | some s => (⟨200, .subCategoryFull (db.fullSubCategory s)⟩, db)
            | none => (⟨404, .text "SubCategory not found"⟩, db)
          else (⟨500, .error .cannotReach⟩, db) := by
  unfold getSubCategory prisma.subCategory.findUnique
  cases checkId (paramInt req "id") with
  | error e => rfl
  | ok n =>
    cases hr : db.reachable <;> simp
    cases db.findSubCategory n <;> rfl

theorem getItem_eq (S : Schema) (db : Db) (req : Request) :
    getItem S db req
      = match checkId (paramInt req "id") with
        | .error e => (⟨500, .error e⟩, db)
        | .ok n =>
          if db.reachable then
            match db.findItem n with
            | some i => (⟨200, .itemFull (db.fullItem i)⟩, db)
            | none => (⟨404, .text "Item not found"⟩, db)
          else (⟨500, .error .cannotReach⟩, db) := by
  unfold getItem prisma.item.findUnique
  cases checkId (paramInt req "id") with
  | error e => rfl
  | ok n =>
    cases hr : db.reachable <;> simp
    cases db.findItem n <;> rfl

theorem checkId_toString (id : Int) (req : Request) (m : Method) (path : List String)
    (q b : Obj) (key : String) (h : req = ⟨m, path, q, b, [(key, .str (toString id))]⟩) :
    checkId (paramInt req key) = if int32 id then .ok id else .error .validation := by
  subst h
  rw [paramInt_id, parseInt_toString]
  rfl

/-! ## Delete and update on a parsed id -/

theorem deleteCategory_absent (S : Schema) (db : Db) (req : Request)
    (h : ∀ n, checkId (paramInt req "id") = .ok n → db.findCategory n = none) :
    ∃ e, deleteCategory S db req = (⟨500, .error e⟩, db) := by
  unfold deleteCategory prisma.category.delete
  cases hc : checkId (paramInt req "id") with
  | error e => exact ⟨e, rfl⟩
  | ok n =>
    cases hr : db.reachable
    · exact ⟨.cannotReach, by simp⟩
    · exact ⟨.recordNotFound, by simp [h n hc]⟩

theorem deleteSubCategory_absent (S : Schema) (db : Db) (req : Request)
    (h : ∀ n, checkId (paramInt req "id") = .ok n → db.findSubCategory n = none) :
    ∃ e, deleteSubCategory S db req = (⟨500, .error e⟩, db) := by
  unfold deleteSubCategory prisma.subCategory.delete
  cases hc : checkId (paramInt req "id") with
  | error e => exact ⟨e, rfl⟩
  | ok n =>
    cases hr : db.reachable
    · exact ⟨.cannotReach, by simp⟩
    · exact ⟨.recordNotFound, by simp [h n hc]⟩

theorem deleteItem_absent (S : Schema) (db : Db) (req : Request)
    (h : ∀ n, checkId (paramInt req "id") = .ok n → db.findItem n = none) :
    ∃ e, deleteItem S db req = (⟨500, .error e⟩, db) := by
  unfold deleteItem prisma.item.delete
  cases hc : checkId (paramInt req "id") with
  | error e => exact ⟨e, rfl⟩
  | ok n =>
    cases hr : db.reachable
    · exact ⟨.cannotReach, by simp⟩
    · exact ⟨.recordNotFound, by simp [h n hc]⟩

theorem putCategory_absent (S : Schema) (db : Db) (req : Request)
    (h : ∀ n, checkId (paramInt req "id") = .ok n → db.findCategory n = none) :
    ∃ e, putCategory S db req = (⟨500, .error e⟩, db) := by
  unfold putCategory prisma.category.update
  cases hc : checkId (paramInt req "id") with
  | error e => exact ⟨e, rfl⟩
  | ok n =>
    cases hv : validUpdate S .category (categoryData req.body).cols
    · exact ⟨.validation, by simp⟩
    · cases hr : db.reachable
      · exact ⟨.cannotReach, by simp⟩
      · exact ⟨.recordNotFound, by simp [h n hc]⟩

theorem putSubCategory_absent (S : Schema) (db : Db) (req : Request)
    (h : ∀ n, checkId (paramInt req "id") = .ok n → db.findSubCategory n = none) :
    ∃ e, putSubCategory S db req = (⟨500, .error e⟩, db) := by
  unfold putSubCategory prisma.subCategory.update
  cases hc : checkId (paramInt req "id") with
  | error e => exact ⟨e, rfl⟩
  | ok n =>
    cases hv : validUpdate S .subCategory (subCategoryData req.body).cols
    · exact ⟨.validation, by simp⟩
    · cases hr : db.reachable
      · exact ⟨.cannotReach, by simp⟩
      · exact ⟨.recordNotFound, by simp [h n hc]⟩

theorem putItem_absent (S : Schema) (db : Db) (req : Request)
    (h : ∀ n, checkId (paramInt req "id") = .ok n → db.findItem n = none) :
    ∃ e, putItem S db req = (⟨500, .error e⟩, db) := by
  unfold putItem prisma.item.update
  cases hc : checkId (paramInt req "id") with
  | error e => exact ⟨e, rfl⟩
  | ok n =>
    cases hv : validUpdate S .item (itemData req.body).cols
    · exact ⟨.validation, by simp⟩
    · cases hr : db.reachable
      · exact ⟨.cannotReach, by simp⟩
      · exact ⟨.recordNotFound, by simp [h n hc]⟩

theorem checkId_ok_toString {id n : Int} {m : Method} {path : List String} {q b : Obj}
    {key : String}
    (h : checkId (paramInt ⟨m, path, q, b, [(key, .str (toString id))]⟩ key) = .ok n) :
    n = id := by
  rw [checkId_toString id _ m path q b key rfl] at h
  split at h
  · cases h; rfl
  · cases h

theorem putCategory_present (S : Schema) (db : Db) (req : Request) (id : Int)
    (c : Category) (hid : checkId (paramInt req "id") = .ok id)
    (hv : validUpdate S .category (categoryData req.body).cols = true)
    (hr : db.reachable = true) (hc : db.findCategory id = some c) :
    putCategory S db req
      = (⟨200, .category { c with data := c.data.updated (categoryData req.body) }⟩,
         { db with categories := db.categories.map fun x =>
             if x.id = id then { c with data := c.data.updated (categoryData req.body) }
             else x }) := by
  unfold putCategory prisma.category.update
  simp [hid, hv, hr, hc]

theorem putSubCategory_present (S : Schema) (db : Db) (req : Request) (id : Int)
    (s : SubCategory) (hid : checkId (paramInt req "id") = .ok id)
    (hv : validUpdate S .subCategory (subCategoryData req.body).cols = true)
    (hr : db.reachable = true) (hs : db.findSubCategory id = some s) :
    putSubCategory S db req
      = (⟨200, .subCategory { s with data := s.data.updated (subCategoryData req.body) }⟩,
         { db with subCategories := db.subCategories.map fun x =>
             if x.id = id then { s with data := s.data.updated (subCategoryData req.body) }
             else x }) := by
  unfold putSubCategory prisma.subCategory.update
  simp [hid, hv, hr, hs]

theorem putItem_present (S : Schema) (db : Db) (req : Request) (id : Int)
    (i : Item) (hid : checkId (paramInt req "id") = .ok id)
    (hv : validUpdate S .item (itemData req.body).cols = true)
    (hr : db.reachable = true) (hi : db.findItem id = some i) :
    putItem S db req
      = (⟨200, .item { i with data := i.data.updated (itemData req.body) }⟩,
         { db with items := db.items.map fun x =>
             if x.id = id then { i with data := i.data.updated (itemData req.body) }
             else x }) := by
  unfold putItem prisma.item.update
  simp [hid, hv, hr, hi]

/-! ## Fetch by id -/

theorem getCategory_snd (S : Schema) (db : Db) (req : Request) :
    (getCategory S db req).2 = db := by
  unfold getCategory
  cases prisma.category.findUnique db (paramInt req "id") with
  | error e => rfl
  | ok o => cases o <;> rfl

theorem getSubCategory_snd (S : Schema) (db : Db) (req : Request) :
    (getSubCategory S db req).2 = db := by
  unfold getSubCategory
  cases prisma.subCategory.findUnique db (paramInt req "id") with
  | error e => rfl
  | ok o => cases o <;> rfl

theorem getItem_snd (S : Schema) (db : Db) (req : Request) :
    (getItem S db req).2 = db := by
  unfold getItem
  cases prisma.item.findUnique db (paramInt req "id") with
  | error e => rfl
  | ok o => cases o <;> rfl

/-- C9: for each of the three entity types and every integer id, `GET .../<id>` leaves
the store as it was, and when the store read succeeds (the id fits the `Int` column and
the database is reachable) it answers 200 with the entity exactly when a row with that id
exists, and otherwise 404 with the plain text `Category not found`,
`SubCategory not found` or `Item not found`. -/
theorem getById_200_iff_row_exists (S : Schema) (db : Db) (id : Int) (q b : Obj) :
    ((app S db (request .GET ["categories", toString id] q b)).2 = db
      ∧ (int32 id = true → db.reachable = true →
          match db.findCategory id with
          | some c =>
            (c ∈ db.categories ∧ c.id = id)
              ∧ (app S db (request .GET ["categories", toString id] q b)).1
                  = ⟨200, .categoryNested (db.nestCategory c)⟩
          | none =>
            (∀ c ∈ db.categories, c.id ≠ id)
              ∧ (app S db (request .GET ["categories", toString id] q b)).1
                  = ⟨404, .text "Category not found"⟩))
    ∧ ((app S db (request .GET ["subcategories", toString id] q b)).2 = db
      ∧ (int32 id = true → db.reachable = true →
          match db.findSubCategory id with
          | some s =>
            (s ∈ db.subCategories ∧ s.id = id)
              ∧ (app S db (request .GET ["subcategories", toString id] q b)).1
                  = ⟨200, .subCategoryFull (db.fullSubCategory s)⟩
          | none =>
            (∀ s ∈ db.subCategories, s.id ≠ id)
              ∧ (app S db (request .GET ["subcategories", toString id] q b)).1
                  = ⟨404, .text "SubCategory not found"⟩))
    ∧ ((app S db (request .GET ["items", toString id] q b)).2 = db
      ∧ (int32 id = true → db.reachable = true →
          match db.findItem id with
          | some i =>
            (i ∈ db.items ∧ i.id = id)
              ∧ (app S db (request .GET ["items", toString id] q b)).1
                  = ⟨200, .itemFull (db.fullItem i)⟩
          | none =>
            (∀ i ∈ db.items, i.id ≠ id)
              ∧ (app S db (request .GET ["items", toString id] q b)).1
                  = ⟨404, .text "Item not found"⟩)) := by
  have hne := toString_int_ne_empty id
  refine ⟨?_, ?_, ?_⟩
  · rw [route_getCategory S db _ q b hne]
    refine ⟨getCategory_snd _ _ _, ?_⟩
    rw [getCategory_eq, checkId_toString id _ _ _ _ _ _ rfl]
    · intro h1 h2
      simp only [h1, h2, if_true]
      cases hf : db.findCategory id with
      | some c => exact ⟨findCategory_some hf, rfl⟩
      | none => exact ⟨findCategory_none.1 hf, rfl⟩
  · rw [route_getSubCategory S db _ q b hne]
    refine ⟨getSubCategory_snd _ _ _, ?_⟩
    rw [getSubCategory_eq, checkId_toString id _ _ _ _ _ _ rfl]
    · intro h1 h2
      simp only [h1, h2, if_true]
      cases hf : db.findSubCategory id with
      | some c => exact ⟨findSubCategory_some hf, rfl⟩
      | none => exact ⟨findSubCategory_none.1 hf, rfl⟩
  · rw [route_getItem S db _ q b hne]
    refine ⟨getItem_snd _ _ _, ?_⟩
    rw [getItem_eq, checkId_toString id _ _ _ _ _ _ rfl]
    · intro h1 h2
      simp only [h1, h2, if_true]
      cases hf : db.findItem id with
      | some c => exact ⟨findItem_some hf, rfl⟩
      | none => exact ⟨findItem_none.1 hf, rfl⟩

/-- Instance of `getById_200_iff_row_exists` on `sampleDb`: id 1 is found in all three
tables. -/
theorem getById_200_iff_row_exists_witness :
    (app specSchema sampleDb (request .GET ["categories", toString (1 : Int)] [] [])).1
        = ⟨200, .categoryNested (sampleDb.nestCategory drinks)⟩
      ∧ (app specSchema sampleDb (request .GET ["subcategories", toString (1 : Int)] [] [])).1
        = ⟨200, .subCategoryFull (sampleDb.fullSubCategory tea)⟩
      ∧ (app specSchema sampleDb (request .GET ["items", toString (1 : Int)] [] [])).1
        = ⟨200, .itemFull (sampleDb.fullItem chai)⟩ :=
  have h := getById_200_iff_row_exists specSchema sampleDb 1 [] []
  ⟨(h.1.2 (by decide) (by decide)).2, (h.2.1.2 (by decide) (by decide)).2,
    (h.2.2.2 (by decide) (by decide)).2⟩

/-! ## Delete -/

/-- C2, as the code behaves: for each entity type and every integer id with no row of
that type, `DELETE .../<id>` answers 500 with an `{ error: message }` body (the store's
error; the handler has no 404 branch) and leaves the store unchanged. -/
theorem delete_absent_is_500 (S : Schema) (db : Db) (id : Int) (q b : Obj) :
    ((∀ c ∈ db.categories, c.id ≠ id) →
        ∃ e, app S db (request .DELETE ["categories", toString id] q b)
          = (⟨500, .error e⟩, db))
    ∧ ((∀ s ∈ db.subCategories, s.id ≠ id) →
        ∃ e, app S db (request .DELETE ["subcategories", toString id] q b)
          = (⟨500, .error e⟩, db))
    ∧ ((∀ i ∈ db.items, i.id ≠ id) →
        ∃ e, app S db (request .DELETE ["items", toString id] q b)
          = (⟨500, .error e⟩, db)) := by
  have hne := toString_int_ne_empty id
  refine ⟨fun h => ?_, fun h => ?_, fun h => ?_⟩
  · rw [route_deleteCategory S db _ q b hne]
    exact deleteCategory_absent S db _ fun n hn =>
      checkId_ok_toString hn ▸ findCategory_none.2 h
  · rw [route_deleteSubCategory S db _ q b hne]
    exact deleteSubCategory_absent S db _ fun n hn =>
      checkId_ok_toString hn ▸ findSubCategory_none.2 h
  · rw [route_deleteItem S db _ q b hne]
    exact deleteItem_absent S db _ fun n hn =>
      checkId_ok_toString hn ▸ findItem_none.2 h

/-- Instance of `delete_absent_is_500`: id 7 is in no table of `sampleDb`. -/
theorem delete_absent_is_500_witness :
    (∃ e, app specSchema sampleDb (request .DELETE ["categories", toString (7 : Int)] [] [])
        = (⟨500, .error e⟩, sampleDb))
    ∧ (∃ e, app specSchema sampleDb
          (request .DELETE ["subcategories", toString (7 : Int)] [] [])
        = (⟨500, .error e⟩, sampleDb))
    ∧ (∃ e, app specSchema sampleDb (request .DELETE ["items", toString (7 : Int)] [] [])
        = (⟨500, .error e⟩, sampleDb)) :=
  have h := delete_absent_is_500 specSchema sampleDb 7 [] []
  ⟨h.1 (by decide), h.2.1 (by decide), h.2.2 (by decide)⟩

/-- C2 fails as stated: in the empty store no row has id 1, and each of the three
DELETE routes answers 500, not 404. -/
theorem delete_absent_not_404 :
    (∀ c ∈ Db.empty.categories, c.id ≠ 1)
      ∧ (∀ s ∈ Db.empty.subCategories, s.id ≠ 1)
      ∧ (∀ i ∈ Db.empty.items, i.id ≠ 1)
      ∧ app specSchema Db.empty (request .DELETE ["categories", "1"] [] [])
          = (⟨500, .error .recordNotFound⟩, Db.empty)
      ∧ app specSchema Db.empty (request .DELETE ["subcategories", "1"] [] [])
          = (⟨500, .error .recordNotFound⟩, Db.empty)
      ∧ app specSchema Db.empty (request .DELETE ["items", "1"] [] [])
          = (⟨500, .error .recordNotFound⟩, Db.empty)
      ∧ (app specSchema Db.empty (request .DELETE ["categories", "1"] [] [])).1.status ≠ 404
      ∧ (app specSchema Db.empty (request .DELETE ["subcategories", "1"] [] [])).1.status
          ≠ 404
      ∧ (app specSchema Db.empty (request .DELETE ["items", "1"] [] [])).1.status ≠ 404 := by
  decide

/-! ## Update -/

/-- C3, as the code behaves: for each entity type and every integer id, `PUT .../<id>`
answers 500 with an `{ error: message }` body and leaves the store unchanged when no row
with that id exists (the handler has no 404 branch); when the row exists and the store
write succeeds (the id fits the `Int` column, every supplied value is accepted by its
column, the database is reachable) it answers 200 with the updated entity, which is then
the stored row. -/
theorem put_absent_is_500_present_is_200 (S : Schema) (db : Db) (id : Int) (q b : Obj) :
    (((∀ c ∈ db.categories, c.id ≠ id) →
        ∃ e, app S db (request .PUT ["categories", toString id] q b)
          = (⟨500, .error e⟩, db))
      ∧ (∀ c, db.findCategory id = some c → int32 id = true →
          validUpdate S .category (categoryData b).cols = true → db.reachable = true →
          app S db (request .PUT ["categories", toString id] q b)
            = (⟨200, .category { c with data := c.data.updated (categoryData b) }⟩,
               { db with categories := db.categories.map fun x =>
                   if x.id = id then { c with data := c.data.updated (categoryData b) }
                   else x })))
    ∧ (((∀ s ∈ db.subCategories, s.id ≠ id) →
        ∃ e, app S db (request .PUT ["subcategories", toString id] q b)
          = (⟨500, .error e⟩, db))
      ∧ (∀ s, db.findSubCategory id = some s → int32 id = true →
          validUpdate S .subCategory (subCategoryData b).cols = true →
          db.reachable = true →
          app S db (request .PUT ["subcategories", toString id] q b)
            = (⟨200, .subCategory { s with data := s.data.updated (subCategoryData b) }⟩,
               { db with subCategories := db.subCategories.map fun x =>
                   if x.id = id then { s with data := s.data.updated (subCategoryData b) }
                   else x })))
    ∧ (((∀ i ∈ db.items, i.id ≠ id) →
        ∃ e, app S db (request .PUT ["items", toString id] q b)
          = (⟨500, .error e⟩, db))
      ∧ (∀ i, db.findItem id = some i → int32 id = true →
          validUpdate S .item (itemData b).cols = true → db.reachable = true →
          app S db (request .PUT ["items", toString id] q b)
            = (⟨200, .item { i with data := i.data.updated (itemData b) }⟩,
               { db with items := db.items.map fun x =>
                   if x.id = id then { i with data := i.data.updated (itemData b) }
                   else x }))) := by
  have hne := toString_int_ne_empty id
  refine ⟨⟨fun h => ?_, fun c hc h32 hv hr => ?_⟩, ⟨fun h => ?_, fun s hs h32 hv hr => ?_⟩,
    ⟨fun h => ?_, fun i hi h32 hv hr => ?_⟩⟩
  · rw [route_putCategory S db _ q b hne]
    exact putCategory_absent S db _ fun n hn =>
      checkId_ok_toString hn ▸ findCategory_none.2 h
  · rw [route_putCategory S db _ q b hne]
    exact putCategory_present S db _ id c
      (by rw [checkId_toString id _ _ _ _ _ _ rfl, if_pos h32]) hv hr hc
  · rw [route_putSubCategory S db _ q b hne]
    exact putSubCategory_absent S db _ fun n hn =>
      checkId_ok_toString hn ▸ findSubCategory_none.2 h
  · rw [route_putSubCategory S db _ q b hne]
    exact putSubCategory_present S db _ id s
      (by rw [checkId_toString id _ _ _ _ _ _ rfl, if_pos h32]) hv hr hs
  · rw [route_putItem S db _ q b hne]
    exact putItem_absent S db _ fun n hn =>
      checkId_ok_toString hn ▸ findItem_none.2 h
  · rw [route_putItem S db _ q b hne]
    exact putItem_present S db _ id i
      (by rw [checkId_toString id _ _ _ _ _ _ rfl, if_pos h32]) hv hr hi

/-- Instance of `put_absent_is_500_present_is_200`: on `sampleDb`, id 7 is absent from
the categories and id 1 is present. -/
theorem put_absent_is_500_present_is_200_witness :
    (∃ e, app specSchema sampleDb (request .PUT ["categories", toString (7 : Int)] [] drinksBody)
        = (⟨500, .error e⟩, sampleDb))
    ∧ app specSchema sampleDb (request .PUT ["categories", toString (1 : Int)] [] drinksBody)
        = (⟨200, .category { drinks with data := drinks.data.updated (categoryData drinksBody) }⟩,
           { sampleDb with categories := sampleDb.categories.map fun x =>
               if x.id = 1 then
                 { drinks with data := drinks.data.updated (categoryData drinksBody) }
               else x }) :=
  ⟨(put_absent_is_500_present_is_200 specSchema sampleDb 7 [] drinksBody).1.1 (by decide),
   (put_absent_is_500_present_is_200 specSchema sampleDb 1 [] drinksBody).1.2 drinks
      (by decide) (by decide) (by decide) (by decide)⟩

/-- C3 fails as stated: in the empty store no row has id 1, and each of the three PUT
routes answers 500, not 404. -/
theorem put_absent_not_404 :
    (∀ c ∈ Db.empty.categories, c.id ≠ 1)
      ∧ (∀ s ∈ Db.empty.subCategories, s.id ≠ 1)
      ∧ (∀ i ∈ Db.empty.items, i.id ≠ 1)
      ∧ app specSchema Db.empty (request .PUT ["categories", "1"] [] drinksBody)
          = (⟨500, .error .recordNotFound⟩, Db.empty)
      ∧ app specSchema Db.empty (request .PUT ["subcategories", "1"] [] teaBody)
          = (⟨500, .error .recordNotFound⟩, Db.empty)
      ∧ app specSchema Db.empty (request .PUT ["items", "1"] [] chaiBody)
          = (⟨500, .error .recordNotFound⟩, Db.empty)
      ∧ (app specSchema Db.empty (request .PUT ["categories", "1"] [] drinksBody)).1.status
          ≠ 404
      ∧ (app specSchema Db.empty (request .PUT ["subcategories", "1"] [] teaBody)).1.status
          ≠ 404
      ∧ (app specSchema Db.empty (request .PUT ["items", "1"] [] chaiBody)).1.status
          ≠ 404 := by
  decide

/-! ## Id segments that are not decimal literals -/

theorem toString_nat_isDigit (m : Nat) : ∀ c ∈ (toString m).toList, IsDigit c :=
  (toDigits_spec m).1

/-- The segment `12abc` is not the decimal rendering of any integer. -/
theorem twelveAbc_not_decimal (n : Int) : toString n ≠ "12abc" := by
  intro h
  cases n with
  | ofNat m =>
    have hd := toString_nat_isDigit m 'a' (by
      have e : toString (Int.ofNat m) = toString m := rfl
      rw [← e, h]; decide)
    exact absurd hd (by decide)
  | negSucc m =>
    have e : (toString (Int.negSucc m)).toList
        = '-' :: (toString (m + 1)).toList := rfl
    rw [h] at e
    have e2 : ("12abc".toList).head? = some '-' := by rw [e]; rfl
    exact absurd e2 (by decide)

/-- C10, as the code behaves: the handlers coerce the segment with `parseInt`.  When
`parseInt` yields `NaN` (as for `abc`), `GET`, `PUT` and `DELETE` on `/categories/:id`
all answer 500 and leave the store unchanged.  When the segment merely starts with an
integer (as `12abc` and `1.5` do, read as 12 and 1), the three handlers act exactly as
they do on the decimal literal of that integer. -/
theorem id_segment_is_read_by_parseInt (S : Schema) (db : Db) (seg : String) (q b : Obj)
    (hseg : seg ≠ "") :
    (parseInt seg = none →
        app S db (request .GET ["categories", seg] q b) = (⟨500, .error .validation⟩, db)
        ∧ app S db (request .PUT ["categories", seg] q b) = (⟨500, .error .validation⟩, db)
        ∧ app S db (request .DELETE ["categories", seg] q b)
            = (⟨500, .error .validation⟩, db))
    ∧ (∀ n : Int, parseInt seg = some n →
        app S db (request .GET ["categories", seg] q b)
            = app S db (request .GET ["categories", toString n] q b)
        ∧ app S db (request .PUT ["categories", seg] q b)
            = app S db (request .PUT ["categories", toString n] q b)
        ∧ app S db (request .DELETE ["categories", seg] q b)
            = app S db (request .DELETE ["categories", toString n] q b)) := by
  refine ⟨fun h => ?_, fun n h => ?_⟩
  · rw [route_getCategory S db _ q b hseg, route_putCategory S db _ q b hseg,
      route_deleteCategory S db _ q b hseg]
    unfold getCategory putCategory deleteCategory prisma.category.findUnique
      prisma.category.update prisma.category.delete
    simp [paramInt_id, h, checkId]
  · have hne := toString_int_ne_empty n
    rw [route_getCategory S db _ q b hseg, route_putCategory S db _ q b hseg,
      route_deleteCategory S db _ q b hseg, route_getCategory S db _ q b hne,
      route_putCategory S db _ q b hne, route_deleteCategory S db _ q b hne]
    unfold getCategory putCategory deleteCategory
    simp [paramInt_id, h, parseInt_toString]

/-- Instance of `id_segment_is_read_by_parseInt`: `abc` is refused, `12abc` is read
as 12. -/
theorem id_segment_is_read_by_parseInt_witness :
    app specSchema twelveDb (request .DELETE ["categories", "abc"] [] [])
        = (⟨500, .error .validation⟩, twelveDb)
    ∧ app specSchema twelveDb (request .DELETE ["categories", "12abc"] [] [])
        = app specSchema twelveDb (request .DELETE ["categories", toString (12 : Int)] [] []) :=
  ⟨((id_segment_is_read_by_parseInt specSchema twelveDb "abc" [] [] (by decide)).1
      (by decide)).2.2,
   ((id_segment_is_read_by_parseInt specSchema twelveDb "12abc" [] [] (by decide)).2 12
      (by decide)).2.2⟩

/-- C10 fails as stated: `12abc` is not a decimal integer literal, yet with a category
12 in the store `GET /categories/12abc` answers 200 with that category,
`PUT /categories/12abc` rewrites it and `DELETE /categories/12abc` removes it. -/
theorem nonDecimal_id_is_accepted :
    (∀ n : Int, toString n ≠ "12abc")
      ∧ (app specSchema twelveDb (request .GET ["categories", "12abc"] [] [])).1
          = ⟨200, .categoryNested ⟨{ drinks with id := 12 }, [], []⟩⟩
      ∧ (app specSchema twelveDb
            (request .PUT ["categories", "12abc"] [] [("name", .str "Food")])).2
          ≠ twelveDb
      ∧ (app specSchema twelveDb (request .DELETE ["categories", "12abc"] [] [])).2.categories
          = [] :=
  ⟨twelveAbc_not_decimal, by decide, by decide, by decide⟩

/-! ## Search -/

/-- The search handler on its own: with a string query and a reachable store it answers
200 with the items whose name contains the query, case-insensitively. -/
theorem searchItems_filters (S : Schema) (db : Db) (req : Request) (query : String)
    (hq : req.query.get "query" = .str query) (hr : db.reachable = true) :
    searchItems S db req
      = (⟨200, .items (db.items.filter fun i => containsInsensitive i.data.name query)⟩,
         db) := by
  unfold searchItems prisma.item.search
  simp [hq, hr]

/-- C1 fails on the code: the route `GET /items/:id` is registered before
`GET /items/search`, so every `GET /items/search` request, whatever the store and the
query, is handled by `getItem` with `id = "search"`; `parseInt` yields `NaN`, the store
refuses the lookup and the answer is 500.  The search handler is never reached. -/
theorem search_route_is_shadowed (S : Schema) (db : Db) (q b : Obj) :
    app S db (request .GET ["items", "search"] q b)
        = getItem S db ⟨.GET, ["items", "search"], q, b, [("id", .str "search")]⟩
      ∧ app S db (request .GET ["items", "search"] q b)
        = (⟨500, .error .validation⟩, db) := by
  have h := route_getItem S db "search" q b (by decide)
  refine ⟨h, ?_⟩
  rw [h, getItem_eq, paramInt_id]
  have e : parseInt "search" = none := by decide
  rw [e]
  rfl

/-- The failing input of C1: with "Blue Shirt" and "Pants" stored, the query `SHIRT`
is answered 500, while the search handler itself would have answered 200 with
"Blue Shirt" alone. -/
theorem search_shirt_example :
    app specSchema clothesDb (request .GET ["items", "search"] [("query", .str "SHIRT")] [])
        = (⟨500, .error .validation⟩, clothesDb)
      ∧ searchItems specSchema clothesDb
          (request .GET ["items", "search"] [("query", .str "SHIRT")] [])
        = (⟨200, .items [blueShirt]⟩, clothesDb) := by
  decide

/-! ## Creating under a parent -/

theorem int32_of_bounds {n : Int} (h1 : 1 ≤ n) (h2 : n < 2147483648) : int32 n = true := by
  unfold int32
  simp only [Bool.and_eq_true, decide_eq_true_eq]
  omega

theorem Db.WF.int32_category {db : Db} (h : db.WF) {c : Category} (hc : c ∈ db.categories) :
    int32 c.id = true := by
  obtain ⟨_, _, _, h4, _, _, h7, _⟩ := h
  have := h4 c hc
  exact int32_of_bounds this.1 (by omega)

theorem Db.WF.int32_subCategory {db : Db} (h : db.WF) {s : SubCategory}
    (hs : s ∈ db.subCategories) : int32 s.id = true := by
  obtain ⟨_, _, _, _, h5, _, _, h8, _⟩ := h
  have := h5 s hs
  exact int32_of_bounds this.1 (by omega)

/-- C5: on `POST /categories/:categoryId/subcategories`, a segment that does not resolve
to an existing Category (through `parseInt`) gives 500 with an `{ error: message }` body
and leaves the store, hence its SubCategory rows, unchanged; a segment that resolves to
the Category `c` gives, when the store accepts the write (the supplied values fit their
columns, the database is reachable, the id sequence is not exhausted), 201 with a new
SubCategory whose `categoryId` is `c.id`, appended to the table. -/
theorem postSubCategory_requires_parent (S : Schema) (db : Db) (seg : String) (q b : Obj)
    (hseg : seg ≠ "") :
    ((∀ n, parseInt seg = some n → db.findCategory n = none) →
        ∃ e, app S db (request .POST ["categories", seg, "subcategories"] q b)
          = (⟨500, .error e⟩, db))
    ∧ (∀ n c, parseInt seg = some n → db.findCategory n = some c → db.WF →
        validCreate S .subCategory (subCategoryData b).cols = true →
        db.reachable = true → int32 db.nextSubCategoryId = true →
        ∃ s : SubCategory,
          app S db (request .POST ["categories", seg, "subcategories"] q b)
            = (⟨201, .subCategory s⟩,
               { db with subCategories := db.subCategories ++ [s]
                         nextSubCategoryId := db.nextSubCategoryId + 1 })
          ∧ s.categoryId = c.id ∧ s.id = db.nextSubCategoryId
          ∧ s.data = (subCategoryData b).created
          ∧ ∀ x ∈ db.subCategories, x.id ≠ s.id) := by
  refine ⟨fun h => ?_, fun n c hn hc hwf hv hr hnext => ?_⟩
  · rw [route_postSubCategory S db _ q b hseg]
    unfold postSubCategory prisma.subCategory.create
    rw [paramInt_id]
    cases hv : validCreate S .subCategory (subCategoryData b).cols
    · exact ⟨.validation, by simp⟩
    · cases hp : parseInt seg with
      | none => exact ⟨.validation, by simp [checkId]⟩
      | some n =>
        cases h32 : int32 n
        · exact ⟨.validation, by simp [checkId, h32]⟩
        · cases hr : db.reachable
          · exact ⟨.cannotReach, by simp [checkId, h32]⟩
          · exact ⟨.recordNotFound, by simp [checkId, h32, h n hp]⟩
  · have hcmem := findCategory_some hc
    have h32 : int32 n = true := hcmem.2 ▸ hwf.int32_category hcmem.1
    refine ⟨⟨db.nextSubCategoryId, (subCategoryData b).created, c.id⟩, ?_, rfl, rfl, rfl, ?_⟩
    · rw [route_postSubCategory S db _ q b hseg]
      unfold postSubCategory prisma.subCategory.create
      rw [paramInt_id]
      simp [hn, checkId, h32, hv, hr, hc, hnext]
    · intro x hx
      obtain ⟨_, _, _, _, h5, _⟩ := hwf
      have := (h5 x hx).2
      show x.id ≠ db.nextSubCategoryId
      omega

/-- Instance of `postSubCategory_requires_parent` on `sampleDb`: segment `7` resolves
to nothing, segment `1` resolves to `drinks`. -/
theorem postSubCategory_requires_parent_witness :
    (∃ e, app specSchema sampleDb
        (request .POST ["categories", "7", "subcategories"] [] teaBody)
          = (⟨500, .error e⟩, sampleDb))
    ∧ (∃ s : SubCategory,
        app specSchema sampleDb (request .POST ["categories", "1", "subcategories"] [] teaBody)
          = (⟨201, .subCategory s⟩,
             { sampleDb with subCategories := sampleDb.subCategories ++ [s]
                             nextSubCategoryId := sampleDb.nextSubCategoryId + 1 })
        ∧ s.categoryId = drinks.id ∧ s.id = sampleDb.nextSubCategoryId
        ∧ s.data = (subCategoryData teaBody).created
        ∧ ∀ x ∈ sampleDb.subCategories, x.id ≠ s.id) :=
  ⟨(postSubCategory_requires_parent specSchema sampleDb "7" [] teaBody (by decide)).1
      (by decide),
   (postSubCategory_requires_parent specSchema sampleDb "1" [] teaBody (by decide)).2
      1 drinks (by decide) (by decide) (by decide) (by decide) (by decide) (by decide)⟩

/-! ## Create, then fetch -/

theorem postCategory_201 {S : Schema} {db db' : Db} {req : Request} {c : Category}
    (h : postCategory S db req = (⟨201, .category c⟩, db')) :
    c = ⟨db.nextCategoryId, (categoryData req.body).created⟩
      ∧ db' = { db with categories := db.categories ++ [c]
                        nextCategoryId := db.nextCategoryId + 1 }
      ∧ db.reachable = true ∧ int32 db.nextCategoryId = true := by
  unfold postCategory prisma.category.create at h
  cases hv : validCreate S .category (categoryData req.body).cols
  · simp [hv] at h
  · cases hr : db.reachable
    · simp [hv, hr] at h
    · cases hn : int32 db.nextCategoryId
      · simp [hv, hr, hn] at h
      · simp only [hv, hr, hn, Bool.not_true, Bool.false_eq_true, if_false, Prod.mk.injEq,
          Response.mk.injEq, ResBody.category.injEq, true_and] at h
        obtain ⟨h1, h2⟩ := h
        subst h1
        exact ⟨rfl, h2.symm, rfl, rfl⟩

theorem find?_append_fresh {α : Type} (p : α → Bool) (l : List α) (x : α)
    (hl : ∀ y ∈ l, p y = false) (hx : p x = true) : (l ++ [x]).find? p = some x := by
  induction l with
  | nil => simp [List.find?, hx]
  | cons a l ih =>
    have ha := hl a (List.mem_cons_self _ _)
    simp only [List.cons_append, List.find?, ha]
    exact ih fun y hy => hl y (List.mem_cons_of_mem _ hy)

theorem onCreate_supplied {v : JVal} (h : v ≠ .undefined) : onCreate v = v := by
  simp [onCreate, h]

/-- C7: in a well-formed store, if `POST /categories` answers 201 with the category `c`,
then `GET /categories/<c.id>` on the resulting store answers 200 with `c` itself (same
id, same fields) and empty `subCategories` and `items`; and every field the request
supplied is a field of `c` with the supplied value. -/
theorem created_category_is_fetched (S : Schema) (db db' : Db) (q b q' b' : Obj)
    (c : Category) (hwf : db.WF)
    (h : app S db (request .POST ["categories"] q b) = (⟨201, .category c⟩, db')) :
    app S db' (request .GET ["categories", toString c.id] q' b')
        = (⟨200, .categoryNested { row := c, subCategories := [], items := [] }⟩, db')
      ∧ (∀ cv ∈ (categoryData b).cols, cv.2 ≠ .undefined → cv ∈ c.data.cols) := by
  rw [route_postCategory] at h
  obtain ⟨hc, hdb, hr, hn⟩ := postCategory_201 h
  obtain ⟨_, _, _, h4, _, _, _, _, _, h10, h11, _⟩ := hwf
  have hcid : c.id = db.nextCategoryId := by rw [hc]
  refine ⟨?_, ?_⟩
  · rw [route_getCategory S db' _ q' b' (toString_int_ne_empty _), getCategory_eq,
      checkId_toString c.id _ _ _ _ _ _ rfl]
    have hr' : db'.reachable = true := by rw [hdb]; exact hr
    have hfind : db'.findCategory c.id = some c := by
      rw [hdb]
      unfold Db.findCategory
      apply find?_append_fresh
      · intro y hy
        have := (h4 y hy).2
        simp only [decide_eq_false_iff_not]
        omega
      · simp
    have hsubs : db'.subCategoriesOf c.id = [] := by
      rw [hdb]
      unfold Db.subCategoriesOf
      rw [List.filter_eq_nil_iff]
      intro s hs
      have := h10 s hs
      simp only [decide_eq_true_eq]
      omega
    have hitems : db'.itemsOfCategory c.id = [] := by
      rw [hdb]
      unfold Db.itemsOfCategory
      rw [List.filter_eq_nil_iff]
      intro i hi
      simp only [decide_eq_true_eq]
      intro hci
      have := h11 i hi c.id (by rw [hci]; rfl)
      omega
    rw [hcid, hn, ← hcid]
    simp only [if_true, hr', hfind]
    unfold Db.nestCategory
    rw [hsubs, hitems]
    rfl
  · intro cv hcv hne
    rw [hc]
    simp only [CategoryData.cols, List.mem_cons, List.mem_singleton, List.not_mem_nil,
      or_false] at hcv
    simp only [CategoryData.cols, CategoryData.created, List.mem_cons, List.mem_singleton,
      List.not_mem_nil, or_false]
    rcases hcv with h | h | h | h | h | h <;> subst h <;>
      simp [onCreate_supplied hne]

/-- Instance of `created_category_is_fetched`: creating "Drinks" in the empty store and
fetching it back. -/
theorem created_category_is_fetched_witness :
    app specSchema (app specSchema Db.empty (request .POST ["categories"] [] drinksBody)).2
        (request .GET ["categories", toString drinks.id] [] [])
        = (⟨200, .categoryNested { row := drinks, subCategories := [], items := [] }⟩,
           (app specSchema Db.empty (request .POST ["categories"] [] drinksBody)).2)
      ∧ (∀ cv ∈ (categoryData drinksBody).cols, cv.2 ≠ .undefined → cv ∈ drinks.data.cols) :=
  created_category_is_fetched specSchema Db.empty _ [] drinksBody [] [] drinks (by decide)
    (by decide)

/-! ## The nested list of categories -/

theorem filter_key_eq_singleton {α : Type} (key : α → Int) (l : List α) (x : α)
    (hnd : (l.map key).Nodup) (hx : x ∈ l) :
    l.filter (fun y => key y = key x) = [x] := by
  induction l with
  | nil => cases hx
  | cons a l ih =>
    rw [List.map_cons, List.nodup_cons] at hnd
    rcases List.mem_cons.1 hx with h | h
    · subst h
      have hrest : l.filter (fun y => decide (key y = key x)) = [] := by
        rw [List.filter_eq_nil_iff]
        intro y hy
        simp only [decide_eq_true_eq]
        intro e
        exact hnd.1 (e ▸ List.mem_map_of_mem key hy)
      simp [List.filter, hrest]
    · have hne : key a ≠ key x := by
        intro e
        exact hnd.1 (e ▸ List.mem_map_of_mem key h)
      simp [List.filter, hne, ih hnd.2 h]

theorem count_flatten_zero (subs : List SubCategory) (items : List Item) (i : Item)
    (sid : Int) (hlink : i.subCategoryId = some sid) (h : ∀ x ∈ subs, x.id ≠ sid) :
    ((subs.map fun x => items.filter fun j => j.subCategoryId = some x.id).flatten).count i
      = 0 := by
  induction subs with
  | nil => rfl
  | cons a subs ih =>
    simp only [List.map_cons, List.flatten_cons, List.count_append]
    rw [ih fun x hx => h x (List.mem_cons_of_mem _ hx)]
    have ha := h a (List.mem_cons_self _ _)
    have : List.count i (items.filter fun j => j.subCategoryId = some a.id) = 0 := by
      rw [List.count_eq_zero]
      intro hmem
      have := (List.mem_filter.1 hmem).2
      simp only [decide_eq_true_eq, hlink, Option.some.injEq] at this
      exact ha this.symm
    omega

theorem count_flatten_one (subs : List SubCategory) (items : List Item) (i : Item)
    (s : SubCategory) (hnd : (subs.map SubCategory.id).Nodup) (hs : s ∈ subs)
    (hlink : i.subCategoryId = some s.id) (hi : items.count i = 1) :
    ((subs.map fun x => items.filter fun j => j.subCategoryId = some x.id).flatten).count i
      = 1 := by
  induction subs with
  | nil => cases hs
  | cons a subs ih =>
    rw [List.map_cons, List.nodup_cons] at hnd
    simp only [List.map_cons, List.flatten_cons, List.count_append]
    rcases List.mem_cons.1 hs with h | h
    · subst h
      rw [count_flatten_zero subs items i s.id hlink (fun x hx e =>
        hnd.1 (e ▸ List.mem_map_of_mem SubCategory.id hx))]
      rw [List.count_filter (by simp [hlink]), hi]
    · rw [ih hnd.2 h]
      have hne : a.id ≠ s.id := fun e =>
        hnd.1 (e ▸ List.mem_map_of_mem SubCategory.id h)
      have : List.count i (items.filter fun j => j.subCategoryId = some a.id) = 0 := by
        rw [List.count_eq_zero]
        intro hmem
        have := (List.mem_filter.1 hmem).2
        simp only [decide_eq_true_eq, hlink, Option.some.injEq] at this
        exact hne this.symm
      omega

/-- C6, as the code behaves: in a well-formed, reachable store, for a Category `c`, a
SubCategory `s` of `c` and an Item `i` of `s`, `GET /categories` answers 200 with one
nested entry per category; `c` has exactly one entry, `s` occurs exactly once among that
entry's subCategories, and `i` is among the items nested under `s`.  In the whole entry
of `c` the item `i` occurs exactly once when it is not also linked to `c` directly, and
exactly twice (under `s` and in `c`'s own items) when it is. -/
theorem nested_list_occurrences (S : Schema) (db : Db) (q b : Obj) (c : Category)
    (s : SubCategory) (i : Item) (hwf : db.WF) (hr : db.reachable = true)
    (hc : c ∈ db.categories) (hs : s ∈ db.subCategories) (hi : i ∈ db.items)
    (hsc : s.categoryId = c.id) (his : i.subCategoryId = some s.id) :
    app S db (request .GET ["categories"] q b)
        = (⟨200, .categories (db.categories.map db.nestCategory)⟩, db)
      ∧ (db.categories.map db.nestCategory).filter (fun e => e.row.id = c.id)
        = [db.nestCategory c]
      ∧ (db.nestCategory c).subCategories.filter (fun x => x.row.id = s.id)
        = [db.nestSubCategory s]
      ∧ i ∈ (db.nestSubCategory s).items
      ∧ (i.categoryId ≠ some c.id → (db.nestCategory c).allItems.count i = 1)
      ∧ (i.categoryId = some c.id → (db.nestCategory c).allItems.count i = 2) := by
  obtain ⟨h1, h2, h3, _⟩ := hwf
  have hcount : db.items.count i = 1 :=
    List.count_eq_one_of_mem (List.Nodup.of_map _ h3) hi
  have hsubs : (db.subCategoriesOf c.id).map SubCategory.id |>.Nodup :=
    h2.sublist ((List.filter_sublist _).map _)
  have hsmem : s ∈ db.subCategoriesOf c.id := by
    unfold Db.subCategoriesOf
    exact List.mem_filter.2 ⟨hs, by simp [hsc]⟩
  have hflat : ((db.nestCategory c).subCategories.map fun x => x.items).flatten.count i
      = 1 := by
    have e : ((db.nestCategory c).subCategories.map fun x => x.items)
        = (db.subCategoriesOf c.id).map fun x =>
            db.items.filter fun j => j.subCategoryId = some x.id := by
      simp [Db.nestCategory, Db.nestSubCategory, Db.itemsOfSubCategory, List.map_map,
        Function.comp_def]
    rw [e]
    exact count_flatten_one _ _ i s hsubs hsmem his hcount
  refine ⟨?_, ?_, ?_, ?_, ?_, ?_⟩
  · rw [route_getCategories]
    simp [getCategories, prisma.category.findMany, hr]
  · rw [List.filter_map]
    have := filter_key_eq_singleton Category.id db.categories c h1 hc
    simp only [Function.comp_def, Db.nestCategory]
    rw [this]
    rfl
  · show ((db.subCategoriesOf c.id).map db.nestSubCategory).filter _ = _
    rw [List.filter_map]
    have := filter_key_eq_singleton SubCategory.id (db.subCategoriesOf c.id) s hsubs hsmem
    simp only [Function.comp_def, Db.nestSubCategory]
    rw [this]
    rfl
  · exact List.mem_filter.2 ⟨hi, by simp [his]⟩
  · intro hne
    unfold CategoryNested.allItems
    rw [List.count_append, hflat]
    have : (db.nestCategory c).items.count i = 0 := by
      rw [List.count_eq_zero]
      intro hmem
      have := (List.mem_filter.1 hmem).2
      simp only [decide_eq_true_eq] at this
      exact hne this
    omega
  · intro heq
    unfold CategoryNested.allItems
    rw [List.count_append, hflat]
    have : (db.nestCategory c).items.count i = 1 := by
      show (db.items.filter _).count i = 1
      rw [List.count_filter (by simp [heq]), hcount]
    omega

/-- Instance of `nested_list_occurrences` on `sampleDb` with `greenTea`, which is linked
to `tea` only. -/
theorem nested_list_occurrences_witness :
    app specSchema sampleDb (request .GET ["categories"] [] [])
        = (⟨200, .categories (sampleDb.categories.map sampleDb.nestCategory)⟩, sampleDb)
      ∧ (sampleDb.categories.map sampleDb.nestCategory).filter
          (fun e => e.row.id = drinks.id)
        = [sampleDb.nestCategory drinks]
      ∧ (sampleDb.nestCategory drinks).subCategories.filter (fun x => x.row.id = tea.id)
        = [sampleDb.nestSubCategory tea]
      ∧ greenTea ∈ (sampleDb.nestSubCategory tea).items
      ∧ (greenTea.categoryId ≠ some drinks.id →
          (sampleDb.nestCategory drinks).allItems.count greenTea = 1)
      ∧ (greenTea.categoryId = some drinks.id →
          (sampleDb.nestCategory drinks).allItems.count greenTea = 2) :=
  nested_list_occurrences specSchema sampleDb [] [] drinks tea greenTea (by decide)
    (by decide) (by decide) (by decide) (by decide) (by decide) (by decide)

/-- C6 fails as stated: in `sampleDb` the item `chai` belongs to the subcategory `tea`
of the category `drinks` and is also linked to `drinks` directly; the entry that
`GET /categories` returns for `drinks` holds it twice. -/
theorem nested_list_duplicates_item :
    sampleDb.WF ∧ drinks ∈ sampleDb.categories ∧ tea ∈ sampleDb.subCategories
      ∧ chai ∈ sampleDb.items ∧ tea.categoryId = drinks.id
      ∧ chai.subCategoryId = some tea.id
      ∧ app specSchema sampleDb (request .GET ["categories"] [] [])
        = (⟨200, .categories [sampleDb.nestCategory drinks]⟩, sampleDb)
      ∧ (sampleDb.nestCategory drinks).allItems.count chai = 2 := by
  decide

/-! ## Updating an item with a field left out -/

theorem itemData_get_omitted (b : Obj) (col : Col) (hcol : col ∈ itemCols)
    (h : b.lookup col.key = none) : (itemData b).get col = .undefined := by
  simp only [itemCols, List.mem_cons, List.mem_singleton, List.not_mem_nil, or_false] at hcol
  rcases hcol with e | e | e | e | e | e | e | e <;> subst e <;>
    simp only [Col.key] at h <;>
    simp [ItemData.get, itemData, Obj.get, h]

theorem ItemData.get_updated (old d : ItemData) (col : Col) :
    (old.updated d).get col = onUpdate (old.get col) (d.get col) := by
  cases col <;> rfl

theorem find?_map_replace {α : Type} (key : α → Int) (l : List α) (n : Int) (x row : α)
    (h : l.find? (fun y => key y = n) = some x) (hrow : key row = n) :
    (l.map fun y => if key y = n then row else y).find? (fun y => key y = n) = some row := by
  induction l with
  | nil => cases h
  | cons a l ih =>
    by_cases ha : key a = n
    · simp [List.find?, ha, hrow]
    · simp only [List.find?, ha, decide_False] at h
      simp [List.find?, ha, ih h]

theorem putItem_200 {S : Schema} {db db' : Db} {req : Request} {i' : Item}
    (h : putItem S db req = (⟨200, .item i'⟩, db')) :
    ∃ n i, db.findItem n = some i
      ∧ i' = { i with data := i.data.updated (itemData req.body) }
      ∧ db'.findItem n = some i'
      ∧ checkId (paramInt req "id") = .ok n := by
  unfold putItem prisma.item.update at h
  cases hid : checkId (paramInt req "id") with
  | error e => simp [hid] at h
  | ok n =>
    cases hv : validUpdate S .item (itemData req.body).cols
    · simp [hid, hv] at h
    · cases hr : db.reachable
      · simp [hid, hv, hr] at h
      · cases hf : db.findItem n with
        | none => simp [hid, hv, hr, hf] at h
        | some i =>
          simp only [hid, hv, hr, hf, Bool.not_true, Bool.false_eq_true, if_false,
            Prod.mk.injEq, Response.mk.injEq, ResBody.item.injEq, true_and] at h
          obtain ⟨h1, h2⟩ := h
          refine ⟨n, i, hf, h1.symm, ?_, rfl⟩
          rw [← h2, ← h1]
          exact find?_map_replace Item.id db.items n i _ hf (findItem_some hf).2

/-- C8, as the code behaves: a field that the body of `PUT /items/:id` leaves out
reaches the store's update call as `undefined`, and the store leaves such a column
alone.  So after a successful update the stored item keeps the value the field had
before; and in a two-step sequence where update 1 sets the field to `v` and update 2
leaves it out, the field still holds `v` after update 2. -/
theorem putItem_omitted_field_is_kept (S : Schema) (db : Db) (id : Int) (q b : Obj)
    (col : Col) (hcol : col ∈ itemCols) (homit : b.lookup col.key = none) :
    (itemData b).get col = .undefined
      ∧ (∀ i i' db', db.findItem id = some i →
          app S db (request .PUT ["items", toString id] q b) = (⟨200, .item i'⟩, db') →
          db'.findItem id = some i' ∧ i'.data.get col = i.data.get col)
      ∧ (∀ q1 b1 v i1 db1 i2 db2, (itemData b1).get col = v → v ≠ .undefined →
          app S db (request .PUT ["items", toString id] q1 b1) = (⟨200, .item i1⟩, db1) →
          app S db1 (request .PUT ["items", toString id] q b) = (⟨200, .item i2⟩, db2) →
          db2.findItem id = some i2 ∧ i2.data.get col = v) := by
  have hne := toString_int_ne_empty id
  have hundef := itemData_get_omitted b col hcol homit
  have step : ∀ (d : Db) (qq bb : Obj) (j' : Item) (d' : Db),
      app S d (request .PUT ["items", toString id] qq bb) = (⟨200, .item j'⟩, d') →
      ∃ j, d.findItem id = some j ∧ d'.findItem id = some j'
        ∧ j'.data.get col = onUpdate (j.data.get col) ((itemData bb).get col) := by
    intro d qq bb j' d' h
    rw [route_putItem S d _ qq bb hne] at h
    obtain ⟨n, j, h1, h2, h3, h4⟩ := putItem_200 h
    have hn : n = id := checkId_ok_toString h4
    subst hn
    exact ⟨j, h1, h3, by rw [h2]; exact ItemData.get_updated _ _ _⟩
  refine ⟨hundef, ?_, ?_⟩
  · intro i i' db' hi h
    obtain ⟨j, h1, h2, h3⟩ := step db q b i' db' h
    rw [hi] at h1
    cases h1
    refine ⟨h2, ?_⟩
    rw [h3, hundef]
    rfl
  · intro q1 b1 v i1 db1 i2 db2 hv hvne h1 h2
    obtain ⟨j, _, hj2, hj3⟩ := step db q1 b1 i1 db1 h1
    obtain ⟨k, hk1, hk2, hk3⟩ := step db1 q b i2 db2 h2
    rw [hj2] at hk1
    cases hk1
    refine ⟨hk2, ?_⟩
    rw [hk3, hundef, hj3, hv]
    simp [onUpdate, hvne]

/-- Instance of `putItem_omitted_field_is_kept` on `sampleDb`: renaming `chai`, then
updating only its discount, leaves the new name in place. -/
theorem putItem_omitted_field_is_kept_witness :
    (itemData discountBody).get .name = .undefined
      ∧ (∀ i i' db', sampleDb.findItem 1 = some i →
          app specSchema sampleDb (request .PUT ["items", toString (1 : Int)] [] discountBody)
            = (⟨200, .item i'⟩, db') →
          db'.findItem 1 = some i' ∧ i'.data.get .name = i.data.get .name)
      ∧ (∀ q1 b1 v i1 db1 i2 db2, (itemData b1).get .name = v → v ≠ .undefined →
          app specSchema sampleDb (request .PUT ["items", toString (1 : Int)] q1 b1)
            = (⟨200, .item i1⟩, db1) →
          app specSchema db1 (request .PUT ["items", toString (1 : Int)] [] discountBody)
            = (⟨200, .item i2⟩, db2) →
          db2.findItem 1 = some i2 ∧ i2.data.get .name = v) :=
  putItem_omitted_field_is_kept specSchema sampleDb 1 [] discountBody .name (by decide)
    (by decide)

/-- C8 fails as stated: on `sampleDb`, update 1 of item 1 sets the name to
"Kashmiri Chai" and update 2 leaves the name out; both answer 200, and after update 2
the stored name is still "Kashmiri Chai", not absent. -/
theorem putItem_does_not_clear :
    (app specSchema sampleDb (request .PUT ["items", "1"] [] renameBody)).1.status = 200
      ∧ (app specSchema (app specSchema sampleDb (request .PUT ["items", "1"] [] renameBody)).2
          (request .PUT ["items", "1"] [] discountBody)).1.status = 200
      ∧ discountBody.lookup "name" = none
      ∧ ((app specSchema
            (app specSchema sampleDb (request .PUT ["items", "1"] [] renameBody)).2
            (request .PUT ["items", "1"] [] discountBody)).2.findItem 1).map
          (fun i => i.data.name) = some (.str "Kashmiri Chai")
      ∧ ((app specSchema
            (app specSchema sampleDb (request .PUT ["items", "1"] [] renameBody)).2
            (request .PUT ["items", "1"] [] discountBody)).2.findItem 1).map
          (fun i => i.data.name) ≠ some .null := by
  decide

/-! ## Creating an item with parent ids -/

theorem connect_unresolved {α : Type} (find : Int → Option α) (key : α → Int) (v : JVal)
    (ht : v.truthy = true) (h : ∀ n, parseInt v.toStr = some n → find n = none) :
    ∃ e, prisma.connect find key (connectIfProvided v) = .error e := by
  unfold connectIfProvided prisma.connect
  simp only [ht, if_true]
  cases hp : parseInt v.toStr with
  | none => exact ⟨.validation, rfl⟩
  | some n =>
    cases h32 : int32 n
    · exact ⟨.validation, by simp [checkId, h32]⟩
    · exact ⟨.recordNotFound, by simp [checkId, h32, h n hp]⟩

theorem connect_ok {α : Type} (find : Int → Option α) (key : α → Int) (v : JVal)
    (o : Option Int) (h : prisma.connect find key (connectIfProvided v) = .ok o) :
    (o = none ↔ v.truthy = false)
      ∧ ∀ n, o = some n → ∃ m r, parseInt v.toStr = some m ∧ find m = some r ∧ key r = n := by
  unfold connectIfProvided prisma.connect at h
  cases ht : v.truthy
  · simp only [ht, Bool.false_eq_true, if_false, Except.ok.injEq] at h
    subst h
    exact ⟨by simp, fun n hn => by cases hn⟩
  · simp only [ht, if_true] at h
    cases hp : parseInt v.toStr with
    | none => simp [hp, checkId] at h
    | some m =>
      cases h32 : int32 m
      · simp [hp, checkId, h32] at h
      · cases hf : find m with
        | none => simp [hp, checkId, h32, hf] at h
        | some r =>
          simp only [hp, checkId, h32, if_true, hf, Except.ok.injEq] at h
          subst h
          refine ⟨by simp, fun n hn => ?_⟩
          cases hn
          exact ⟨m, r, rfl, hf, rfl⟩

/-- C4, as the code behaves: on `POST /items`, a truthy `categoryId` (respectively
`subCategoryId`) that does not resolve through `parseInt` to an existing Category
(respectively SubCategory) makes the request fail with 500 and leaves the store
unchanged, so no Item row is added.  A falsy value (absent, `null`, `false`, `0`, the
empty string) is treated as not provided: whenever the request answers 201, the new item
is the one row added, it has no category link exactly when `categoryId` is falsy, no
subcategory link exactly when `subCategoryId` is falsy, and every link it has points at
an existing row. -/
theorem postItem_parent_links (S : Schema) (db : Db) (q b : Obj) :
    ((b.get "categoryId").truthy = true →
        (∀ n, parseInt (b.get "categoryId").toStr = some n → db.findCategory n = none) →
        ∃ e, app S db (request .POST ["items"] q b) = (⟨500, .error e⟩, db))
    ∧ ((b.get "subCategoryId").truthy = true →
        (∀ n, parseInt (b.get "subCategoryId").toStr = some n →
          db.findSubCategory n = none) →
        ∃ e, app S db (request .POST ["items"] q b) = (⟨500, .error e⟩, db))
    ∧ (∀ i db', app S db (request .POST ["items"] q b) = (⟨201, .item i⟩, db') →
        db' = { db with items := db.items ++ [i], nextItemId := db.nextItemId + 1 }
        ∧ (i.categoryId = none ↔ (b.get "categoryId").truthy = false)
        ∧ (i.subCategoryId = none ↔ (b.get "subCategoryId").truthy = false)
        ∧ (∀ n, i.categoryId = some n → ∃ c ∈ db.categories, c.id = n)
        ∧ (∀ n, i.subCategoryId = some n → ∃ s ∈ db.subCategories, s.id = n)) := by
  rw [route_postItem]
  unfold postItem prisma.item.create
  simp only []
  refine ⟨fun ht h => ?_, fun ht h => ?_, fun i db' h => ?_⟩
  · cases hv : validCreate S .item (itemData b).cols
    · exact ⟨.validation, by simp⟩
    · cases hr : db.reachable
      · exact ⟨.cannotReach, by simp⟩
      · obtain ⟨e, he⟩ := connect_unresolved db.findCategory Category.id _ ht h
        exact ⟨e, by simp [he]⟩
  · cases hv : validCreate S .item (itemData b).cols
    · exact ⟨.validation, by simp⟩
    · cases hr : db.reachable
      · exact ⟨.cannotReach, by simp⟩
      · cases hc : prisma.connect db.findCategory Category.id
            (connectIfProvided (b.get "categoryId")) with
        | error e => exact ⟨e, by simp⟩
        | ok cid =>
          obtain ⟨e, he⟩ := connect_unresolved db.findSubCategory SubCategory.id _ ht h
          exact ⟨e, by simp [he]⟩
  · cases hv : validCreate S .item (itemData b).cols
    · simp [hv] at h
    · cases hr : db.reachable
      · simp [hv, hr] at h
      · cases hc : prisma.connect db.findCategory Category.id
            (connectIfProvided (b.get "categoryId")) with
        | error e => simp [hv, hr, hc] at h
        | ok cid =>
          cases hs : prisma.connect db.findSubCategory SubCategory.id
              (connectIfProvided (b.get "subCategoryId")) with
          | error e => simp [hv, hr, hc, hs] at h
          | ok sid =>
            cases hn : int32 db.nextItemId
            · simp [hv, hr, hc, hs, hn] at h
            · simp only [hv, hr, hc, hs, hn, Bool.not_true, Bool.false_eq_true, if_false,
                Prod.mk.injEq, Response.mk.injEq, ResBody.item.injEq, true_and] at h
              obtain ⟨h1, h2⟩ := h
              subst h1
              have kc := connect_ok _ _ _ _ hc
              have ks := connect_ok _ _ _ _ hs
              refine ⟨h2.symm, kc.1, ks.1, fun n hn' => ?_, fun n hn' => ?_⟩
              · obtain ⟨m, r, _, hf, hk⟩ := kc.2 n hn'
                exact ⟨r, (findCategory_some hf).1, hk⟩
              · obtain ⟨m, r, _, hf, hk⟩ := ks.2 n hn'
                exact ⟨r, (findSubCategory_some hf).1, hk⟩

/-- Instance of `postItem_parent_links` on `sampleDb`: `categoryId: 7` is truthy and
resolves to nothing. -/
theorem postItem_parent_links_witness :
    ∃ e, app specSchema sampleDb (request .POST ["items"] [] danglingParentBody)
      = (⟨500, .error e⟩, sampleDb) :=
  (postItem_parent_links specSchema sampleDb [] danglingParentBody).1 (by decide)
    (by decide)

/-- C4 fails as stated: the body provides `categoryId: 0` and `subCategoryId: ""`,
neither of which resolves to a row of `sampleDb`, yet the request answers 201 and an
Item row with no parent link is added. -/
theorem postItem_accepts_falsy_parent_ids :
    falsyParentsBody.lookup "categoryId" = some (.num 0 (by decide))
      ∧ falsyParentsBody.lookup "subCategoryId" = some (.str "")
      ∧ sampleDb.findCategory 0 = none
      ∧ parseInt "" = none
      ∧ (app specSchema sampleDb (request .POST ["items"] [] falsyParentsBody)).1
        = ⟨201, .item { chai with id := 3, categoryId := none, subCategoryId := none }⟩
      ∧ (app specSchema sampleDb (request .POST ["items"] [] falsyParentsBody)).2.items
        = sampleDb.items
            ++ [{ chai with id := 3, categoryId := none, subCategoryId := none }] := by
  decide

/-! ## Well-formed stores are closed under the application -/

theorem int32_upper {n : Int} (h : int32 n = true) : n ≤ 2147483647 := by
  unfold int32 at h
  simp only [Bool.and_eq_true, decide_eq_true_eq] at h
  exact h.2

theorem nodup_map_append_fresh {α : Type} (key : α → Int) (l : List α) (x : α)
    (hnd : (l.map key).Nodup) (hx : ∀ y ∈ l, key y ≠ key x) :
    ((l ++ [x]).map key).Nodup := by
  rw [List.map_append, List.nodup_append]
  refine ⟨hnd, by simp, ?_⟩
  intro a ha hb
  simp only [List.map_cons, List.map_nil, List.mem_singleton] at hb
  obtain ⟨y, hy, rfl⟩ := List.mem_map.1 ha
  exact hx y hy hb

theorem map_key_replace {α : Type} (key : α → Int) (l : List α) (f : α → α)
    (hf : ∀ y ∈ l, key (f y) = key y) : (l.map f).map key = l.map key := by
  rw [List.map_map]
  exact List.map_congr_left fun y hy => hf y hy

theorem Db.empty_WF : Db.empty.WF := by decide

theorem category_create_WF {S : Schema} {db db' : Db} {d : CategoryData} {c : Category}
    (hwf : db.WF) (h : prisma.category.create S db d = .ok (c, db')) : db'.WF := by
  unfold prisma.category.create at h
  split at h
  · cases h
  · split at h
    · cases h
    · split at h
      · cases h
      · rename_i _ _ hn
        simp only [Bool.not_eq_true, Bool.not_eq_false, Bool.not_eq_eq_eq_not, Bool.not_false, Bool.not_true] at hn
        have hup := int32_upper hn
        simp only [Except.ok.injEq, Prod.mk.injEq] at h
        obtain ⟨rfl, rfl⟩ := h
        obtain ⟨h1, h2, h3, h4, h5, h6, h7, h8, h9, h10, h11, h12, h13, h14, h15⟩ := hwf
        refine ⟨?_, h2, h3, ?_, h5, h6, ?_, h8, h9, ?_, ?_, h12, ?_, h14, h15⟩
        · apply nodup_map_append_fresh _ _ _ h1
          intro y hy
          have := (h4 y hy).2
          show y.id ≠ db.nextCategoryId
          omega
        · intro c hc
          rcases List.mem_append.1 hc with hc | hc
          · have := h4 c hc
            show 1 ≤ c.id ∧ c.id < db.nextCategoryId + 1
            omega
          · simp only [List.mem_singleton] at hc
            subst hc
            show 1 ≤ db.nextCategoryId ∧ db.nextCategoryId < db.nextCategoryId + 1
            omega
        · show db.nextCategoryId + 1 ≤ 2147483648
          omega
        · intro s hs
          have := h10 s hs
          show s.categoryId < db.nextCategoryId + 1
          omega
        · intro i hi n hn'
          have := h11 i hi n hn'
          show n < db.nextCategoryId + 1
          omega
        · show 1 ≤ db.nextCategoryId + 1
          omega

theorem subCategory_create_WF {S : Schema} {db db' : Db} {d : SubCategoryData}
    {cat : Option Int} {s : SubCategory}
    (hwf : db.WF) (h : prisma.subCategory.create S db d cat = .ok (s, db')) : db'.WF := by
  unfold prisma.subCategory.create at h
  split at h
  · cases h
  · split at h
    · cases h
    · split at h
      · cases h
      · split at h
        · cases h
        · rename_i c hc
          split at h
          · cases h
          · rename_i hn
            simp only [Bool.not_eq_true, Bool.not_eq_false, Bool.not_eq_eq_eq_not, Bool.not_false, Bool.not_true] at hn
            have hup := int32_upper hn
            simp only [Except.ok.injEq, Prod.mk.injEq] at h
            obtain ⟨rfl, rfl⟩ := h
            obtain ⟨h1, h2, h3, h4, h5, h6, h7, h8, h9, h10, h11, h12, h13, h14, h15⟩ := hwf
            have hcm := findCategory_some hc
            refine ⟨h1, ?_, h3, h4, ?_, h6, h7, ?_, h9, ?_, h11, ?_, h13, ?_, h15⟩
            · apply nodup_map_append_fresh _ _ _ h2
              intro y hy
              have := (h5 y hy).2
              show y.id ≠ db.nextSubCategoryId
              omega
            · intro x hx
              rcases List.mem_append.1 hx with hx | hx
              · have := h5 x hx
                show 1 ≤ x.id ∧ x.id < db.nextSubCategoryId + 1
                omega
              · simp only [List.mem_singleton] at hx
                subst hx
                show 1 ≤ db.nextSubCategoryId
                  ∧ db.nextSubCategoryId < db.nextSubCategoryId + 1
                omega
            · show db.nextSubCategoryId + 1 ≤ 2147483648
              omega
            · intro x hx
              rcases List.mem_append.1 hx with hx | hx
              · exact h10 x hx
              · simp only [List.mem_singleton] at hx
                subst hx
                exact (h4 c hcm.1).2
            · intro i hi n hn'
              have := h12 i hi n hn'
              show n < db.nextSubCategoryId + 1
              omega
            · show 1 ≤ db.nextSubCategoryId + 1
              omega

theorem connect_lt {α : Type} (find : Int → Option α) (key : α → Int)
    (arg : Option (Option Int)) (o : Option Int) (bound : Int)
    (hb : ∀ n r, find n = some r → key r < bound)
    (h : prisma.connect find key arg = .ok o) : ∀ n ∈ o, n < bound := by
  unfold prisma.connect at h
  split at h
  · cases h
    intro n hn
    cases hn
  · split at h
    · cases h
    · split at h
      · cases h
      · rename_i r hr
        cases h
        intro n hn
        simp only [Option.mem_def, Option.some.injEq] at hn
        subst hn
        exact hb _ r hr

theorem item_create_WF {S : Schema} {db db' : Db} {d : ItemData}
    {cat sub : Option (Option Int)} {i : Item}
    (hwf : db.WF) (h : prisma.item.create S db d cat sub = .ok (i, db')) : db'.WF := by
  unfold prisma.item.create at h
  split at h
  · cases h
  · split at h
    · cases h
    · split at h
      · cases h
      · rename_i cid hcid
        split at h
        · cases h
        · rename_i sid hsid
          split at h
          · cases h
          · rename_i hn
            simp only [Bool.not_eq_true, Bool.not_eq_false, Bool.not_eq_eq_eq_not,
              Bool.not_false, Bool.not_true] at hn
            have hup := int32_upper hn
            simp only [Except.ok.injEq, Prod.mk.injEq] at h
            obtain ⟨rfl, rfl⟩ := h
            obtain ⟨h1, h2, h3, h4, h5, h6, h7, h8, h9, h10, h11, h12, h13, h14, h15⟩ := hwf
            have kc := connect_lt _ _ _ _ db.nextCategoryId
              (fun n r hr => (h4 r (findCategory_some hr).1).2) hcid
            have ks := connect_lt _ _ _ _ db.nextSubCategoryId
              (fun n r hr => (h5 r (findSubCategory_some hr).1).2) hsid
            refine ⟨h1, h2, ?_, h4, h5, ?_, h7, h8, ?_, h10, ?_, ?_, h13, h14, ?_⟩
            · apply nodup_map_append_fresh _ _ _ h3
              intro y hy
              have := (h6 y hy).2
              show y.id ≠ db.nextItemId
              omega
            · intro x hx
              rcases List.mem_append.1 hx with hx | hx
              · have := h6 x hx
                show 1 ≤ x.id ∧ x.id < db.nextItemId + 1
                omega
              · simp only [List.mem_singleton] at hx
                subst hx
                show 1 ≤ db.nextItemId ∧ db.nextItemId < db.nextItemId + 1
                omega
            · show db.nextItemId + 1 ≤ 2147483648
              omega
            · intro x hx
              rcases List.mem_append.1 hx with hx | hx
              · exact h11 x hx
              · simp only [List.mem_singleton] at hx
                subst hx
                exact kc
            · intro x hx
              rcases List.mem_append.1 hx with hx | hx
              · exact h12 x hx
              · simp only [List.mem_singleton] at hx
                subst hx
                exact ks
            · show 1 ≤ db.nextItemId + 1
              omega

theorem category_update_WF {S : Schema} {db db' : Db} {id : Option Int}
    {d : CategoryData} {c : Category}
    (hwf : db.WF) (h : prisma.category.update S db id d = .ok (c, db')) : db'.WF := by
  unfold prisma.category.update at h
  split at h
  · cases h
  · rename_i n _
    split at h
    · cases h
    · split at h
      · cases h
      · split at h
        · cases h
        · rename_i c0 hc0
          simp only [Except.ok.injEq, Prod.mk.injEq] at h
          obtain ⟨rfl, rfl⟩ := h
          obtain ⟨h1, h2, h3, h4, h5, h6, h7, h8, h9, h10, h11, h12, h13, h14, h15⟩ := hwf
          have hcm := findCategory_some hc0
          have hkey : ∀ y ∈ db.categories,
              Category.id (if y.id = n then { c0 with data := c0.data.updated d } else y)
                = y.id := by
            intro y _
            split
            · rename_i e
              show c0.id = y.id
              rw [hcm.2, e]
            · rfl
          refine ⟨?_, h2, h3, ?_, h5, h6, h7, h8, h9, h10, h11, h12, h13, h14, h15⟩
          · show ((db.categories.map _).map Category.id).Nodup
            rw [map_key_replace Category.id _ _ hkey]
            exact h1
          · intro x hx
            obtain ⟨y, hy, rfl⟩ := List.mem_map.1 hx
            have := h4 y hy
            have e := hkey y hy
            show 1 ≤ Category.id _ ∧ Category.id _ < db.nextCategoryId
            rw [e]
            exact this

theorem subCategory_update_WF {S : Schema} {db db' : Db} {id : Option Int}
    {d : SubCategoryData} {s : SubCategory}
    (hwf : db.WF) (h : prisma.subCategory.update S db id d = .ok (s, db')) : db'.WF := by
  unfold prisma.subCategory.update at h
  split at h
  · cases h
  · rename_i n _
    split at h
    · cases h
    · split at h
      · cases h
      · split at h
        · cases h
        · rename_i s0 hs0
          simp only [Except.ok.injEq, Prod.mk.injEq] at h
          obtain ⟨rfl, rfl⟩ := h
          obtain ⟨h1, h2, h3, h4, h5, h6, h7, h8, h9, h10, h11, h12, h13, h14, h15⟩ := hwf
          have hsm := findSubCategory_some hs0
          have hkey : ∀ y ∈ db.subCategories,
              SubCategory.id (if y.id = n then { s0 with data := s0.data.updated d } else y)
                = y.id := by
            intro y _
            split
            · rename_i e
              show s0.id = y.id
              rw [hsm.2, e]
            · rfl
          refine ⟨h1, ?_, h3, h4, ?_, h6, h7, h8, h9, ?_, h11, h12, h13, h14, h15⟩
          · show ((db.subCategories.map _).map SubCategory.id).Nodup
            rw [map_key_replace SubCategory.id _ _ hkey]
            exact h2
          · intro x hx
            obtain ⟨y, hy, rfl⟩ := List.mem_map.1 hx
            have := h5 y hy
            have e := hkey y hy
            show 1 ≤ SubCategory.id _ ∧ SubCategory.id _ < db.nextSubCategoryId
            rw [e]
            exact this
          · intro x hx
            obtain ⟨y, hy, rfl⟩ := List.mem_map.1 hx
            split
            · exact h10 s0 hsm.1
            · exact h10 y hy

theorem item_update_WF {S : Schema} {db db' : Db} {id : Option Int}
    {d : ItemData} {i : Item}
    (hwf : db.WF) (h : prisma.item.update S db id d = .ok (i, db')) : db'.WF := by
  unfold prisma.item.update at h
  split at h
  · cases h
  · rename_i n _
    split at h
    · cases h
    · split at h
      · cases h
      · split at h
        · cases h
        · rename_i i0 hi0
          simp only [Except.ok.injEq, Prod.mk.injEq] at h
          obtain ⟨rfl, rfl⟩ := h
          obtain ⟨h1, h2, h3, h4, h5, h6, h7, h8, h9, h10, h11, h12, h13, h14, h15⟩ := hwf
          have him := findItem_some hi0
          have hkey : ∀ y ∈ db.items,
              Item.id (if y.id = n then { i0 with data := i0.data.updated d } else y)
                = y.id := by
            intro y _
            split
            · rename_i e
              show i0.id = y.id
              rw [him.2, e]
            · rfl
          refine ⟨h1, h2, ?_, h4, h5, ?_, h7, h8, h9, h10, ?_, ?_, h13, h14, h15⟩
          · show ((db.items.map _).map Item.id).Nodup
            rw [map_key_replace Item.id _ _ hkey]
            exact h3
          · intro x hx
            obtain ⟨y, hy, rfl⟩ := List.mem_map.1 hx
            have := h6 y hy
            have e := hkey y hy
            show 1 ≤ Item.id _ ∧ Item.id _ < db.nextItemId
            rw [e]
            exact this
          · intro x hx
            obtain ⟨y, hy, rfl⟩ := List.mem_map.1 hx
            split
            · exact h11 i0 him.1
            · exact h11 y hy
          · intro x hx
            obtain ⟨y, hy, rfl⟩ := List.mem_map.1 hx
            split
            · exact h12 i0 him.1
            · exact h12 y hy

theorem category_delete_WF {db db' : Db} {id : Option Int} {c : Category}
    (hwf : db.WF) (h : prisma.category.delete db id = .ok (c, db')) : db'.WF := by
  unfold prisma.category.delete at h
  split at h
  · cases h
  · rename_i n _
    split at h
    · cases h
    · split at h
      · cases h
      · split at h
        · simp only [Except.ok.injEq, Prod.mk.injEq] at h
          obtain ⟨_, rfl⟩ := h
          obtain ⟨h1, h2, h3, h4, h5, h6, h7, h8, h9, h10, h11, h12, h13, h14, h15⟩ := hwf
          have hkey : ∀ y ∈ db.items,
              Item.id (if y.categoryId = some n then { y with categoryId := none } else y)
                = y.id := by
            intro y _
            split <;> rfl
          refine ⟨?_, h2, ?_, ?_, h5, ?_, h7, h8, h9, h10, ?_, ?_, h13, h14, h15⟩
          · exact h1.sublist ((List.filter_sublist _).map _)
          · show ((db.items.map _).map Item.id).Nodup
            rw [map_key_replace Item.id _ _ hkey]
            exact h3
          · intro x hx
            exact h4 x (List.mem_filter.1 hx).1
          · intro x hx
            obtain ⟨y, hy, rfl⟩ := List.mem_map.1 hx
            have := h6 y hy
            have e := hkey y hy
            show 1 ≤ Item.id _ ∧ Item.id _ < db.nextItemId
            rw [e]
            exact this
          · intro x hx
            obtain ⟨y, hy, rfl⟩ := List.mem_map.1 hx
            split
            · intro m hm
              cases hm
            · exact h11 y hy
          · intro x hx
            obtain ⟨y, hy, rfl⟩ := List.mem_map.1 hx
            split
            · exact h12 y hy
            · exact h12 y hy
        · cases h

theorem subCategory_delete_WF {db db' : Db} {id : Option Int} {s : SubCategory}
    (hwf : db.WF) (h : prisma.subCategory.delete db id = .ok (s, db')) : db'.WF := by
  unfold prisma.subCategory.delete at h
  split at h
  · cases h
  · rename_i n _
    split at h
    · cases h
    · split at h
      · cases h
      · simp only [Except.ok.injEq, Prod.mk.injEq] at h
        obtain ⟨_, rfl⟩ := h
        obtain ⟨h1, h2, h3, h4, h5, h6, h7, h8, h9, h10, h11, h12, h13, h14, h15⟩ := hwf
        have hkey : ∀ y ∈ db.items,
            Item.id (if y.subCategoryId = some n then { y with subCategoryId := none }
              else y) = y.id := by
          intro y _
          split <;> rfl
        refine ⟨h1, ?_, ?_, h4, ?_, ?_, h7, h8, h9, ?_, ?_, ?_, h13, h14, h15⟩
        · exact h2.sublist ((List.filter_sublist _).map _)
        · show ((db.items.map _).map Item.id).Nodup
          rw [map_key_replace Item.id _ _ hkey]
          exact h3
        · intro x hx
          exact h5 x (List.mem_filter.1 hx).1
        · intro x hx
          obtain ⟨y, hy, rfl⟩ := List.mem_map.1 hx
          have := h6 y hy
          have e := hkey y hy
          show 1 ≤ Item.id _ ∧ Item.id _ < db.nextItemId
          rw [e]
          exact this
        · intro x hx
          exact h10 x (List.mem_filter.1 hx).1
        · intro x hx
          obtain ⟨y, hy, rfl⟩ := List.mem_map.1 hx
          split
          · exact h11 y hy
          · exact h11 y hy
        · intro x hx
          obtain ⟨y, hy, rfl⟩ := List.mem_map.1 hx
          split
          · intro m hm
            cases hm
          · exact h12 y hy

theorem item_delete_WF {db db' : Db} {id : Option Int} {i : Item}
    (hwf : db.WF) (h : prisma.item.delete db id = .ok (i, db')) : db'.WF := by
  unfold prisma.item.delete at h
  split at h
  · cases h
  · rename_i n _
    split at h
    · cases h
    · split at h
      · cases h
      · simp only [Except.ok.injEq, Prod.mk.injEq] at h
        obtain ⟨_, rfl⟩ := h
        obtain ⟨h1, h2, h3, h4, h5, h6, h7, h8, h9, h10, h11, h12, h13, h14, h15⟩ := hwf
        refine ⟨h1, h2, ?_, h4, h5, ?_, h7, h8, h9, h10, ?_, ?_, h13, h14, h15⟩
        · exact h3.sublist ((List.filter_sublist _).map _)
        · intro x hx
          exact h6 x (List.mem_filter.1 hx).1
        · intro x hx
          exact h11 x (List.mem_filter.1 hx).1
        · intro x hx
          exact h12 x (List.mem_filter.1 hx).1

/-- Every registered handler takes a well-formed store to a well-formed store. -/
theorem handler_WF (r : Route) (hr : r ∈ routes) (S : Schema) (db : Db) (req : Request)
    (hwf : db.WF) : (r.handler S db req).2.WF := by
  simp only [routes, List.mem_cons, List.mem_singleton, List.not_mem_nil, or_false] at hr
  rcases hr with rfl | rfl | rfl | rfl | rfl | rfl | rfl | rfl | rfl | rfl | rfl | rfl
    | rfl | rfl | rfl | rfl
  · show (postCategory S db req).2.WF
    unfold postCategory
    split
    · rename_i h; exact category_create_WF hwf h
    · exact hwf
  · show (getCategories S db req).2.WF
    unfold getCategories
    split <;> exact hwf
  · show (getCategory S db req).2.WF
    rw [getCategory_snd]; exact hwf
  · show (putCategory S db req).2.WF
    unfold putCategory
    split
    · rename_i h; exact category_update_WF hwf h
    · exact hwf
  · show (deleteCategory S db req).2.WF
    unfold deleteCategory
    split
    · rename_i h; exact category_delete_WF hwf h
    · exact hwf
  · show (postSubCategory S db req).2.WF
    unfold postSubCategory
    split
    · rename_i h; exact subCategory_create_WF hwf h
    · exact hwf
  · show (getSubCategories S db req).2.WF
    unfold getSubCategories
    split <;> exact hwf
  · show (getSubCategory S db req).2.WF
    rw [getSubCategory_snd]; exact hwf
  · show (putSubCategory S db req).2.WF
    unfold putSubCategory
    split
    · rename_i h; exact subCategory_update_WF hwf h
    · exact hwf
  · show (deleteSubCategory S db req).2.WF
    unfold deleteSubCategory
    split
    · rename_i h; exact subCategory_delete_WF hwf h
    · exact hwf
  · show (postItem S db req).2.WF
    unfold postItem
    split
    · rename_i h; exact item_create_WF hwf h
    · exact hwf
  · show (getItems S db req).2.WF
    unfold getItems
    split <;> exact hwf
  · show (getItem S db req).2.WF
    rw [getItem_snd]; exact hwf
  · show (putItem S db req).2.WF
    unfold putItem
    split
    · rename_i h; exact item_update_WF hwf h
    · exact hwf
  · show (deleteItem S db req).2.WF
    unfold deleteItem
    split
    · rename_i h; exact item_delete_WF hwf h
    · exact hwf
  · show (searchItems S db req).2.WF
    unfold searchItems
    split <;> exact hwf

theorem dispatch_WF (S : Schema) (db : Db) (req : Request) (hwf : db.WF) :
    ∀ rs : List Route, (∀ r ∈ rs, r ∈ routes) → (dispatch S db req rs).2.WF := by
  intro rs
  induction rs with
  | nil => intro _; exact hwf
  | cons r rs ih =>
    intro hrs
    have hrest : ∀ x ∈ rs, x ∈ routes := fun x hx => hrs x (List.mem_cons_of_mem _ hx)
    unfold dispatch
    split
    · split
      · exact handler_WF r (hrs r (List.mem_cons_self _ _)) S db _ hwf
      · exact ih hrest
    · exact ih hrest

/-- Well-formedness is an invariant of the application: every request leaves a
well-formed store well-formed, and the empty store is well-formed. -/
theorem app_preserves_WF (S : Schema) (db : Db) (req : Request) (hwf : db.WF) :
    (app S db req).2.WF :=
  dispatch_WF S db req hwf routes fun _ h => h

end Guestara
